import Mathlib

/-!
Verification development for the sshx reverse-tunnel service
(server: src/server/src/{main,auth,shared}.rs, client: src/client/src/{main,auth,shared}.rs).

The Rust sources are shallowly embedded: pure computations become Lean
functions, the async/stateful handlers become explicit state-passing
functions parameterised over the outcomes of their I/O actions (bind
success, send success, received message), machine integers become Nat,
and fallible operations return Option/Except, with `none` standing for a
Rust panic where noted.
-/

namespace Sshx

/-- A single-quote character (ASCII 39), used to build the error strings of
`claim_port` without a literal quote. -/
def squote : String := String.singleton (Char.ofNat 39)

namespace Server

/-- src/server/src/shared.rs line 16: the control port the server binds,
`pub const CONTROL_PORT: u16 = 7835`. -/
def CONTROL_PORT : Nat := 7835

/-- src/server/src/shared.rs line 19: `pub const MAX_FRAME: usize = 512`,
the `max_length` passed to `AnyDelimiterCodec::new_with_max_length`. -/
def MAX_FRAME : Nat := 512

end Server

namespace Client

/-- src/client/src/shared.rs line 12: the control port the client dials,
`pub const CONTROL_PORT: u16 = 12267`. -/
def CONTROL_PORT : Nat := 12267

/-- src/client/src/shared.rs line 13: `pub const MAX_FRAME: usize = 512`. -/
def MAX_FRAME : Nat := 512

end Client

-- ── Registry: the `subdomains: DashMap<String, u16>` map ─────────────────────

/-- The subdomain registry, modelling `DashMap<String, u16>`: an association
list with at most one binding per key (DashMap::insert replaces). -/
def Subdomains := List (String × Nat)

/-- Models `DashMap::contains_key`. -/
def Subdomains.contains_key (m : Subdomains) (k : String) : Bool :=
  m.any (fun p => p.1 == k)

/-- Models `DashMap::insert` (replacing any previous binding of `k`). -/
def Subdomains.insert (m : Subdomains) (k : String) (v : Nat) : Subdomains :=
  (k, v) :: m.filter (fun p => p.1 != k)

/-- Models `DashMap::remove` on the subdomains map (main.rs line 144 uses
only the removal side effect). -/
def Subdomains.remove (m : Subdomains) (k : String) : Subdomains :=
  m.filter (fun p => p.1 != k)

-- ── State and claim_port (src/server/src/main.rs lines 49-89) ────────────────

/-- The fields of `struct State` (main.rs lines 49-58) that `claim_port`
reads or writes: the subdomains map and the configured port range.
(`pending`, `auth` and `bind` are modelled separately where needed.) -/
structure State where
  subdomains : Subdomains
  min_port : Nat
  max_port : Nat

/-- Models `fastrand::u16(lo..=hi)` driven by an abstract RNG state `r`:
on an empty range (`lo > hi`) fastrand panics, modelled as `none`;
otherwise it returns a value in `[lo, hi]` determined by `r`. -/
def fastrand_u16 (lo hi : Nat) (r : Nat) : Option Nat :=
  if lo > hi then none else some (lo + r % (hi + 1 - lo))

/-- The port value `fastrand_u16 lo hi r` yields when the range is nonempty. -/
def drawnPort (lo hi : Nat) (r : Nat) : Nat := lo + r % (hi + 1 - lo)

/-- Environment of a `claim_port` call: the successive RNG states consumed by
the `fastrand::u16` calls, and whether `TcpListener::bind((bind, port))`
succeeds for each port (main.rs line 80). -/
structure ClaimEnv where
  draws : Nat → Nat
  bindOk : Nat → Bool

/-- The retry loop of `claim_port` (main.rs lines 78-87): `fuel` iterations
remain, `i` indexes the next RNG draw.  A result of `none` models a panic
inside the loop (fastrand on an empty range). -/
def claim_port_go (st : State) (subdomain : String) (env : ClaimEnv) :
    Nat → Nat → Option (Except String (Nat × State))
  | 0, _ => some (.error "no free ports available")
  | fuel + 1, i =>
    match fastrand_u16 st.min_port st.max_port (env.draws i) with
    | none => none
    | some port =>
      if env.bindOk port then
        some (.ok (port,
          { st with subdomains := st.subdomains.insert subdomain port }))
      else
        claim_port_go st subdomain env fuel (i + 1)

/-- Models `State::claim_port` (main.rs lines 73-89).  Result `none` is a
panic; `some (.error e)` is `Err(e)`; `some (.ok (port, st))` is
`Ok(listener)` for a listener bound on `port`, with the subdomain recorded. -/
def claim_port (st : State) (subdomain : String) (env : ClaimEnv) :
    Option (Except String (Nat × State)) :=
  if st.subdomains.contains_key subdomain then
    some (.error ("subdomain " ++ squote ++ subdomain ++ squote ++ " is already taken"))
  else
    claim_port_go st subdomain env 150 0

-- ── Registration path of handle_control (src/server/src/main.rs 130-147) ────

/-- Outcome injection for the registration arm of `handle_control`
(main.rs lines 130-147): whether `listener.local_addr()` succeeds (line 138),
whether the `ServerMsg::Hello` reply send succeeds (line 139), whether the
send of an `Error` reply succeeds (line 134), and whether `drive_tunnel`
returns Ok (line 143). -/
structure HelloEnv where
  claimEnv : ClaimEnv
  localAddrOk : Bool
  sendHelloOk : Bool
  sendErrOk : Bool
  driveOk : Bool

/-- Whether the handler task finished with `Ok(())` or `Err(_)`. -/
inductive HandlerExit where
  | ok
  | err
  deriving DecidableEq

/-- Models the `ClientMsg::Hello` arm of `handle_control` (main.rs lines
130-147): dispatch on `claim_port`, reply, run `drive_tunnel`, and only then
`state.subdomains.remove(&subdomain)` (line 144).  The `?` operators on
lines 134, 138 and 139 return early WITHOUT reaching the removal.  Returns
the handler exit and the final subdomains map; `none` models a panic inside
`claim_port`. -/
def handle_control_hello (st : State) (subdomain : String) (env : HelloEnv) :
    Option (HandlerExit × Subdomains) :=
  match claim_port st subdomain env.claimEnv with
  | none => none
  | some (.error _e) =>
      if env.sendErrOk then some (.ok, st.subdomains) else some (.err, st.subdomains)
  | some (.ok (_port, st1)) =>
      if !env.localAddrOk then some (.err, st1.subdomains)
      else if !env.sendHelloOk then some (.err, st1.subdomains)
      else
        some (if env.driveOk then .ok else .err, st1.subdomains.remove subdomain)

end Sshx

namespace Sshx

-- ── Lemmas about fastrand and the claim_port loop ────────────────────────────

theorem fastrand_u16_eq_some {lo hi : Nat} (h : lo ≤ hi) (r : Nat) :
    fastrand_u16 lo hi r = some (drawnPort lo hi r) := by
  unfold fastrand_u16 drawnPort
  rw [if_neg (by omega)]

theorem fastrand_u16_eq_none {lo hi : Nat} (h : hi < lo) (r : Nat) :
    fastrand_u16 lo hi r = none := by
  unfold fastrand_u16
  rw [if_pos (by omega)]

theorem drawnPort_mem {lo hi : Nat} (h : lo ≤ hi) (r : Nat) :
    lo ≤ drawnPort lo hi r ∧ drawnPort lo hi r ≤ hi := by
  unfold drawnPort
  have h1 : r % (hi + 1 - lo) < hi + 1 - lo := Nat.mod_lt _ (by omega)
  omega

theorem claim_port_go_all_fail (st : State) (s : String) (env : ClaimEnv)
    (h : st.min_port ≤ st.max_port) :
    ∀ fuel i,
      (∀ k, k < fuel →
        env.bindOk (drawnPort st.min_port st.max_port (env.draws (i + k))) = false) →
      claim_port_go st s env fuel i = some (.error "no free ports available") := by
  intro fuel
  induction fuel with
  | zero => intro i _; rfl
  | succ n ih =>
    intro i hfail
    have h0 := hfail 0 (by omega)
    simp only [Nat.add_zero] at h0
    unfold claim_port_go
    rw [fastrand_u16_eq_some h]
    simp only [h0, Bool.false_eq_true, if_false]
    apply ih
    intro k hk
    have hx := hfail (k + 1) (by omega)
    have : i + (k + 1) = i + 1 + k := by omega
    rwa [this] at hx

theorem claim_port_go_first_success (st : State) (s : String) (env : ClaimEnv)
    (h : st.min_port ≤ st.max_port) :
    ∀ fuel i j, j < fuel →
      (∀ k, k < j →
        env.bindOk (drawnPort st.min_port st.max_port (env.draws (i + k))) = false) →
      env.bindOk (drawnPort st.min_port st.max_port (env.draws (i + j))) = true →
      claim_port_go st s env fuel i =
        some (.ok (drawnPort st.min_port st.max_port (env.draws (i + j)),
          { st with subdomains :=
              st.subdomains.insert s (drawnPort st.min_port st.max_port (env.draws (i + j))) })) := by
  intro fuel
  induction fuel with
  | zero => intro i j hj; omega
  | succ n ih =>
    intro i j hj hbefore hsucc
    unfold claim_port_go
    rw [fastrand_u16_eq_some h]
    cases j with
    | zero =>
      simp only [Nat.add_zero] at hsucc
      simp only [hsucc, if_true]
      simp only [Nat.add_zero]
    | succ j' =>
      have h0 := hbefore 0 (by omega)
      simp only [Nat.add_zero] at h0
      simp only [h0, Bool.false_eq_true, if_false]
      have heq : i + (j' + 1) = i + 1 + j' := by omega
      rw [heq] at hsucc ⊢
      apply ih (i + 1) j' (by omega) _ hsucc
      intro k hk
      have hx := hbefore (k + 1) (by omega)
      have : i + (k + 1) = i + 1 + k := by omega
      rwa [this] at hx

theorem claim_port_go_ne_none (st : State) (s : String) (env : ClaimEnv)
    (h : st.min_port ≤ st.max_port) :
    ∀ fuel i, claim_port_go st s env fuel i ≠ none := by
  intro fuel
  induction fuel with
  | zero => intro i hx; exact Option.noConfusion hx
  | succ n ih =>
    intro i
    unfold claim_port_go
    rw [fastrand_u16_eq_some h]
    by_cases hb : env.bindOk (drawnPort st.min_port st.max_port (env.draws i)) = true
    · simp only [hb, if_true]
      intro hx; exact Option.noConfusion hx
    · simp only [Bool.not_eq_true] at hb
      simp only [hb, Bool.false_eq_true, if_false]
      exact ih (i + 1)

theorem claim_port_go_panic (st : State) (s : String) (env : ClaimEnv)
    (h : st.max_port < st.min_port) (fuel i : Nat) :
    claim_port_go st s env (fuel + 1) i = none := by
  unfold claim_port_go
  rw [fastrand_u16_eq_none h]

-- ── Claim theorems: C1, C4, C5, C10 ──────────────────────────────────────────

/-- C1: the claim says every registration whose `claim_port` succeeded removes
its subdomain from the map before the handler task ends, even when
`listener.local_addr()` or the `Hello{public_port}` send fails.  The code
violates this: with an empty registry and default port range, a successful
claim of "demo" followed by a failing `local_addr()` makes `handle_control`
exit with `Err` while the map still contains "demo" — the mapping is never
released. -/
theorem C1_subdomain_leak :
    handle_control_hello ⟨[], 2000, 65000⟩ "demo"
        ⟨⟨fun _ => 0, fun _ => true⟩, false, true, true, true⟩ =
      some (.err, [("demo", 2000)]) ∧
    Subdomains.contains_key [("demo", 2000)] "demo" = true := by
  constructor
  · rfl
  · rfl

/-- C4: the claim says client and server share one control-port constant with
value 7835.  In the code the server binds `CONTROL_PORT = 7835`
(src/server/src/shared.rs line 16) while the client dials
`CONTROL_PORT = 12267` (src/client/src/shared.rs line 12): the two constants
differ, so the client as shipped cannot reach the server. -/
theorem C4_control_port_mismatch :
    Server.CONTROL_PORT = 7835 ∧ Client.CONTROL_PORT = 12267 ∧
      Server.CONTROL_PORT ≠ Client.CONTROL_PORT := by
  refine ⟨rfl, rfl, ?_⟩
  decide

/-- C5: behaviour of `claim_port` (src/server/src/main.rs lines 73-89) over a
nonempty port range.  If the subdomain is taken the call fails with exactly
the taken-subdomain message; otherwise each of the up-to-150 attempts
draws a port in `[min_port, max_port]`, the first successful bind records the
mapping and returns that port, 150 failed binds yield exactly
"no free ports available", and the call never panics. -/
theorem C5_claim_port_spec (st : State) (s : String) (env : ClaimEnv)
    (hrange : st.min_port ≤ st.max_port) :
    (st.subdomains.contains_key s = true →
      claim_port st s env =
        some (.error ("subdomain " ++ squote ++ s ++ squote ++ " is already taken")))
    ∧ (st.subdomains.contains_key s = false →
        ((∀ k, k < 150 →
            env.bindOk (drawnPort st.min_port st.max_port (env.draws k)) = false) →
          claim_port st s env = some (.error "no free ports available"))
        ∧ (∀ j, j < 150 →
            (∀ k, k < j →
              env.bindOk (drawnPort st.min_port st.max_port (env.draws k)) = false) →
            env.bindOk (drawnPort st.min_port st.max_port (env.draws j)) = true →
            claim_port st s env =
              some (.ok (drawnPort st.min_port st.max_port (env.draws j),
                { st with subdomains :=
                    st.subdomains.insert s (drawnPort st.min_port st.max_port (env.draws j)) }))
            ∧ st.min_port ≤ drawnPort st.min_port st.max_port (env.draws j)
            ∧ drawnPort st.min_port st.max_port (env.draws j) ≤ st.max_port)
        ∧ claim_port st s env ≠ none) := by
  constructor
  · intro htaken
    unfold claim_port
    rw [if_pos htaken]
  · intro hfree
    refine ⟨?_, ?_, ?_⟩
    · intro hall
      unfold claim_port
      rw [if_neg (by simp [hfree])]
      apply claim_port_go_all_fail st s env hrange 150 0
      intro k hk
      simpa using hall k hk
    · intro j hj hbefore hsucc
      refine ⟨?_, (drawnPort_mem hrange _).1, (drawnPort_mem hrange _).2⟩
      unfold claim_port
      rw [if_neg (by simp [hfree])]
      have := claim_port_go_first_success st s env hrange 150 0 j hj
        (by intro k hk; simpa using hbefore k hk) (by simpa using hsucc)
      simpa using this
    · unfold claim_port
      rw [if_neg (by simp [hfree])]
      exact claim_port_go_ne_none st s env hrange 150 0

/-- Closed instance of C5: with an empty registry, range 2000..=65000, and a
bind oracle that accepts only port 2005, the sixth draw (RNG states 0..5)
wins: the call returns port 2005 and records ("demo", 2005); and with a bind
oracle that always fails, the call returns "no free ports available". -/
theorem C5_claim_port_spec_witness :
    claim_port ⟨[], 2000, 65000⟩ "demo" ⟨fun i => i, fun p => p == 2005⟩ =
      some (.ok (2005, ⟨[("demo", 2005)], 2000, 65000⟩)) ∧
    claim_port ⟨[], 2000, 65000⟩ "demo" ⟨fun i => i, fun _ => false⟩ =
      some (.error "no free ports available") := by
  constructor
  · have h := (((C5_claim_port_spec ⟨[], 2000, 65000⟩ "demo"
      ⟨fun i => i, fun p => p == 2005⟩ (by decide)).2 (by decide)).2.1 5 (by decide)
      (by decide) (by decide)).1
    simpa using h
  · exact ((C5_claim_port_spec ⟨[], 2000, 65000⟩ "demo"
      ⟨fun i => i, fun _ => false⟩ (by decide)).2 (by decide)).1 (by decide)

/-- C10: `claim_port` is total (never panics) exactly under the precondition
`min_port ≤ max_port`: over a nonempty range it always returns `some`
(Ok or Err), while with `min_port > max_port` and a not-yet-taken subdomain
the first `fastrand::u16` call draws from an empty range and panics
(modelled as `none`) instead of returning "no free ports available". -/
theorem C10_claim_port_panic_empty_range (st : State) (s : String) (env : ClaimEnv) :
    (st.min_port ≤ st.max_port → claim_port st s env ≠ none)
    ∧ (st.max_port < st.min_port → st.subdomains.contains_key s = false →
        claim_port st s env = none) := by
  constructor
  · intro hle
    unfold claim_port
    by_cases htaken : st.subdomains.contains_key s = true
    · rw [if_pos htaken]
      intro hx; exact Option.noConfusion hx
    · simp only [Bool.not_eq_true] at htaken
      rw [if_neg (by simp [htaken])]
      exact claim_port_go_ne_none st s env hle 150 0
  · intro hlt hfree
    unfold claim_port
    rw [if_neg (by simp [hfree])]
    exact claim_port_go_panic st s env hlt 149 0

/-- Closed instance of C10: with `min_port = 5 > 3 = max_port` and an empty
registry, `claim_port` panics (`none`); with the default range 2000..=65000
it returns a value. -/
theorem C10_claim_port_panic_empty_range_witness :
    claim_port ⟨[], 5, 3⟩ "a" ⟨fun _ => 0, fun _ => false⟩ = none ∧
    claim_port ⟨[], 2000, 65000⟩ "a" ⟨fun _ => 0, fun _ => false⟩ ≠ none := by
  constructor
  · exact (C10_claim_port_panic_empty_range ⟨[], 5, 3⟩ "a"
      ⟨fun _ => 0, fun _ => false⟩).2 (by decide) (by decide)
  · exact (C10_claim_port_panic_empty_range ⟨[], 2000, 65000⟩ "a"
      ⟨fun _ => 0, fun _ => false⟩).1 (by decide)

end Sshx

namespace Sshx

-- ── The framed transport codec ───────────────────────────────────────────────
-- `Framed_::new` (shared.rs lines 68-72) wraps the stream in the tokio-util
-- `AnyDelimiterCodec::new_with_max_length(vec![0], vec![0], MAX_FRAME)`.
-- The decoder below is a byte-for-byte embedding of the `decode` of that codec
-- (tokio-util, codec/any_delimiter_codec.rs), the code that enforces the
-- frame-size bound the spec describes.

/-- Mutable decoder state of `AnyDelimiterCodec`: the resume offset
`next_index` and the `is_discarding` flag set after a length overflow. -/
structure CodecState where
  next_index : Nat
  is_discarding : Bool
  deriving DecidableEq

/-- The state `AnyDelimiterCodec::new_with_max_length` starts in. -/
def CodecState.fresh : CodecState := ⟨0, false⟩

/-- One outcome of `AnyDelimiterCodec::decode`: a decoded chunk, "need more
data" (`Ok(None)`), or `Err(MaxChunkLengthExceeded)`. -/
inductive DecodeOut where
  | chunk (payload : List Nat)
  | needMore
  | overflow
  deriving DecidableEq

/-- The `decode` loop of `AnyDelimiterCodec` with seek delimiter `0` and
`max_length = 512` (the codec built by `Framed_::new`): searches
`buf[next_index .. min(max_length+1, buf.len())]` for the delimiter; a hit
yields the bytes before it as the chunk; no hit with `buf.len() > max_length`
is a length error that starts discarding; in discarding mode input up to and
including the next delimiter is dropped.  Returns the outcome, the updated
codec state and the remaining buffer.  `fuel` bounds the loop; callers pass
`buf.length + 1`, which the loop (strictly consuming per iteration) never
exhausts. -/
def decodeFrame : Nat → CodecState → List Nat → DecodeOut × CodecState × List Nat
  | 0, st, buf => (.needMore, st, buf)
  | fuel + 1, st, buf =>
    let read_to := min (Server.MAX_FRAME + 1) buf.length
    let window := (buf.drop st.next_index).take (read_to - st.next_index)
    match st.is_discarding, window.findIdx? (fun b => b == 0) with
    | true, some offset =>
        decodeFrame fuel ⟨0, false⟩ (buf.drop (offset + st.next_index + 1))
    | true, none =>
        let buf1 := buf.drop read_to
        if buf1.isEmpty then (.needMore, ⟨0, true⟩, buf1)
        else decodeFrame fuel ⟨0, true⟩ buf1
    | false, some offset =>
        let idx := offset + st.next_index
        (.chunk (buf.take idx), ⟨0, false⟩, buf.drop (idx + 1))
    | false, none =>
        if buf.length > Server.MAX_FRAME then (.overflow, ⟨st.next_index, true⟩, buf)
        else (.needMore, ⟨read_to, false⟩, buf)

/-- One call of `Framed_::recv`-level frame extraction on a fully buffered
input: run the codec decode on `buf` from codec state `st`. -/
def recvFrame (st : CodecState) (buf : List Nat) : DecodeOut × CodecState × List Nat :=
  decodeFrame (buf.length + 1) st buf

-- ── Pending map (`pending: DashMap<Uuid, TcpStream>`) and its two takers ─────

/-- The pending-connection registry `pending: DashMap<Uuid, TcpStream>`
(main.rs line 53): at most one entry per id (DashMap semantics); ids model
`Uuid`, values model the parked `TcpStream`. -/
def Pending := List (Nat × Nat)

/-- Models `DashMap::insert` on the pending map (main.rs line 188). -/
def Pending.insert (m : Pending) (id sock : Nat) : Pending :=
  (id, sock) :: m.filter (fun p => p.1 != id)

/-- Models `DashMap::remove` on the pending map: remove-and-return.  Both the
accept path (main.rs line 151) and the reap task (main.rs line 192) call
exactly this operation. -/
def Pending.take (m : Pending) (id : Nat) : Option Nat × Pending :=
  match m.find? (fun p => p.1 == id) with
  | some p => (some p.2, m.filter (fun q => q.1 != id))
  | none => (none, m)

/-- The events that touch a given pending id: the `state.pending.insert`
in `drive_tunnel` (line 188), the `state.pending.remove` in the
`ClientMsg::Accept` arm (line 151), and the `pending.pending.remove` in the
spawned 10-second reap task (line 192). -/
inductive PendEvent where
  | ins (id sock : Nat)
  | takeAccept (id : Nat)
  | takeReap (id : Nat)
  deriving DecidableEq

/-- Apply one event to the pending map, recording whether a take succeeded
(`some sock`). -/
def pendStep (m : Pending) : PendEvent → Pending × Option Nat
  | .ins id sock => (m.insert id sock, none)
  | .takeAccept id => let r := m.take id; (r.2, r.1)
  | .takeReap id => let r := m.take id; (r.2, r.1)

/-- Run a trace of events, returning the final map. -/
def pendRun (m : Pending) : List PendEvent → Pending
  | [] => m
  | e :: tr => pendRun (pendStep m e).1 tr

/-- How many take events (accept-path or reap-path) for `id` succeed along a
trace. -/
def takeSuccesses (m : Pending) (id : Nat) : List PendEvent → Nat
  | [] => 0
  | .ins i sock :: tr => takeSuccesses (m.insert i sock) id tr
  | .takeAccept i :: tr =>
      (if i = id ∧ (m.take i).1.isSome then 1 else 0) + takeSuccesses (m.take i).2 id tr
  | .takeReap i :: tr =>
      (if i = id ∧ (m.take i).1.isSome then 1 else 0) + takeSuccesses (m.take i).2 id tr

/-- How many inserts of `id` a trace performs. -/
def insCount (id : Nat) : List PendEvent → Nat
  | [] => 0
  | .ins i _ :: tr => (if i = id then 1 else 0) + insCount id tr
  | _ :: tr => insCount id tr

/-- How many entries for `id` the map currently holds (0 or 1 under DashMap
semantics). -/
def keyCount (m : Pending) (id : Nat) : Nat :=
  (m.filter (fun p => p.1 == id)).length

-- ── Lemmas about the pending map ─────────────────────────────────────────────

theorem take_eq_of_keyCount_zero (m : Pending) (id : Nat) (h : keyCount m id = 0) :
    m.take id = (none, m) := by
  unfold Pending.take
  have hnil : m.filter (fun q => q.1 == id) = [] := List.length_eq_zero.mp h
  have hfind : m.find? (fun p => p.1 == id) = none := by
    rw [List.find?_eq_none]
    intro p hp
    exact fun hbeq => (List.filter_eq_nil_iff.mp hnil p hp) hbeq
  rw [hfind]

theorem keyCount_take_self (m : Pending) (id : Nat) : keyCount (m.take id).2 id = 0 := by
  unfold Pending.take
  cases hf : m.find? (fun p => p.1 == id) with
  | none =>
    have hall := List.find?_eq_none.mp hf
    simp only [keyCount, List.length_eq_zero]
    exact List.filter_eq_nil_iff.mpr (fun a ha => hall a ha)
  | some p =>
    simp only [keyCount, List.length_eq_zero]
    apply List.filter_eq_nil_iff.mpr
    intro a ha
    have h2 : (a.1 != id) = true := (List.mem_filter.mp ha).2
    simp only [bne_iff_ne, ne_eq] at h2
    simp only [beq_iff_eq]
    exact h2

theorem keyCount_pos_of_take_isSome (m : Pending) (id : Nat)
    (h : (m.take id).1.isSome = true) : 1 ≤ keyCount m id := by
  unfold Pending.take at h
  cases hf : m.find? (fun p => p.1 == id) with
  | none => rw [hf] at h; exact absurd h (by simp)
  | some p =>
    have hp := List.mem_of_find?_eq_some hf
    have hpred := List.find?_some hf
    have : p ∈ m.filter (fun q => q.1 == id) := List.mem_filter.mpr ⟨hp, hpred⟩
    have := List.length_pos.mpr (List.ne_nil_of_mem this)
    unfold keyCount
    omega

theorem keyCount_take_other (m : Pending) (i id : Nat) (h : i ≠ id) :
    keyCount (m.take i).2 id = keyCount m id := by
  unfold Pending.take
  cases hf : m.find? (fun p => p.1 == i) with
  | none => rfl
  | some p =>
    simp only [keyCount]
    congr 1
    rw [List.filter_filter]
    apply List.filter_congr
    intro a _
    by_cases hid : a.1 = id
    · subst hid
      have : (a.1 != i) = true := by simp [bne_iff_ne]; exact fun hh => h (hh ▸ rfl)
      simp [this]
    · simp [hid]

theorem keyCount_insert_self (m : Pending) (id s : Nat) :
    keyCount (m.insert id s) id = 1 := by
  simp only [keyCount, Pending.insert, List.filter_cons]
  have hhead : (((id, s) : Nat × Nat).1 == id) = true := by simp
  rw [if_pos hhead]
  have : (m.filter (fun p => p.1 != id)).filter (fun p => p.1 == id) = [] := by
    apply List.filter_eq_nil_iff.mpr
    intro a ha
    have h2 : (a.1 != id) = true := (List.mem_filter.mp ha).2
    simp only [bne_iff_ne, ne_eq] at h2
    simp only [beq_iff_eq]
    exact h2
  rw [this]
  rfl

theorem keyCount_insert_other (m : Pending) (i id s : Nat) (h : i ≠ id) :
    keyCount (m.insert i s) id = keyCount m id := by
  simp only [keyCount, Pending.insert, List.filter_cons]
  have hhead : (((i, s) : Nat × Nat).1 == id) = false := by simp [h]
  rw [if_neg (by simp [hhead])]
  congr 1
  rw [List.filter_filter]
  apply List.filter_congr
  intro a _
  by_cases hid : a.1 = id
  · subst hid
    have : (a.1 != i) = true := by simp [bne_iff_ne]; exact fun hh => h (hh ▸ rfl)
    simp [this]
  · simp [hid]

/-- Trace invariant: successful takes of `id` plus the entries for `id` left
in the final map are bounded by the entries initially present plus the
inserts of `id` the trace performs. -/
theorem pend_take_invariant (id : Nat) : ∀ (tr : List PendEvent) (m : Pending),
    takeSuccesses m id tr + keyCount (pendRun m tr) id ≤ keyCount m id + insCount id tr := by
  intro tr
  induction tr with
  | nil => intro m; simp [takeSuccesses, pendRun, insCount]
  | cons e tr ih =>
    intro m
    cases e with
    | ins i sock =>
      have h := ih (m.insert i sock)
      simp only [takeSuccesses, pendRun, pendStep, insCount]
      by_cases hi : i = id
      · subst hi
        rw [keyCount_insert_self m i sock] at h
        rw [if_pos rfl]
        omega
      · rw [keyCount_insert_other m i id sock hi] at h
        rw [if_neg hi]
        omega
    | takeAccept i =>
      have h := ih (m.take i).2
      simp only [takeSuccesses, pendRun, pendStep, insCount]
      by_cases hi : i = id
      · subst hi
        rw [keyCount_take_self m i] at h
        by_cases hs : (m.take i).1.isSome = true
        · have hpos := keyCount_pos_of_take_isSome m i hs
          rw [if_pos (And.intro rfl hs)]
          omega
        · rw [if_neg (fun hc : i = i ∧ (m.take i).1.isSome = true => hs hc.2)]
          omega
      · rw [keyCount_take_other m i id hi] at h
        rw [if_neg (fun hc : i = id ∧ (m.take i).1.isSome = true => hi hc.1)]
        omega
    | takeReap i =>
      have h := ih (m.take i).2
      simp only [takeSuccesses, pendRun, pendStep, insCount]
      by_cases hi : i = id
      · subst hi
        rw [keyCount_take_self m i] at h
        by_cases hs : (m.take i).1.isSome = true
        · have hpos := keyCount_pos_of_take_isSome m i hs
          rw [if_pos (And.intro rfl hs)]
          omega
        · rw [if_neg (fun hc : i = i ∧ (m.take i).1.isSome = true => hs hc.2)]
          omega
      · rw [keyCount_take_other m i id hi] at h
        rw [if_neg (fun hc : i = id ∧ (m.take i).1.isSome = true => hi hc.1)]
        omega

/-- C6: at-most-once delivery from the pending map.  For every id not
initially present that a trace inserts at most once (ids are fresh UUIDv4
values), at most one take — `pending.remove` in the Accept arm (main.rs
line 151) or in the reap task (line 192) — ever succeeds along the trace;
a take on a map with no entry for the id returns `none` and leaves the map
unchanged (the reap after a successful accept is a no-op); and after any
take no entry for the id remains, so accept and reap can never both
succeed. -/
theorem C6_pending_take_at_most_once (id : Nat) :
    (∀ (m : Pending) (tr : List PendEvent), keyCount m id = 0 → insCount id tr ≤ 1 →
      takeSuccesses m id tr ≤ 1)
    ∧ (∀ m : Pending, keyCount m id = 0 → m.take id = (none, m))
    ∧ (∀ m : Pending, keyCount (m.take id).2 id = 0) := by
  refine ⟨?_, ?_, ?_⟩
  · intro m tr h0 h1
    have h := pend_take_invariant id tr m
    omega
  · exact fun m h => take_eq_of_keyCount_zero m id h
  · exact fun m => keyCount_take_self m id

/-- Closed instance of C6: id 7 inserted once then taken by the accept path;
the reap that follows is a no-op, so exactly one take succeeded. -/
theorem C6_pending_take_at_most_once_witness :
    takeSuccesses [] 7 [.ins 7 1, .takeAccept 7, .takeReap 7] ≤ 1 ∧
    Pending.take [] 7 = (none, ([] : Pending)) := by
  constructor
  · exact (C6_pending_take_at_most_once 7).1 [] [.ins 7 1, .takeAccept 7, .takeReap 7]
      (by decide) (by decide)
  · exact (C6_pending_take_at_most_once 7).2.1 [] (by decide)

-- ── Lemmas about the codec decode ────────────────────────────────────────────

theorem findIdx?_delim_append (p : List Nat) (hz : ∀ b ∈ p, b ≠ 0) (rest : List Nat) :
    ∀ s : Nat, (p ++ 0 :: rest).findIdx? (fun b => b == 0) s = some (p.length + s) := by
  induction p with
  | nil =>
    intro s
    simp [List.findIdx?_cons]
  | cons a p ih =>
    intro s
    have ha : (a == 0) = false := by
      simp only [beq_eq_false_iff_ne, ne_eq]
      exact hz a (by simp)
    simp only [List.cons_append, List.findIdx?_cons, ha, Bool.false_eq_true, if_false]
    rw [ih (fun b hb => hz b (by simp [hb])) (s + 1)]
    congr 1
    simp only [List.length_cons]
    omega

theorem findIdx?_delim_none (l : List Nat) (hz : ∀ b ∈ l, b ≠ 0) :
    ∀ s : Nat, l.findIdx? (fun b => b == 0) s = none := by
  induction l with
  | nil => intro s; rfl
  | cons a l ih =>
    intro s
    have ha : (a == 0) = false := by
      simp only [beq_eq_false_iff_ne, ne_eq]
      exact hz a (by simp)
    simp only [List.findIdx?_cons, ha, Bool.false_eq_true, if_false]
    exact ih (fun b hb => hz b (by simp [hb])) (s + 1)

/-- From the fresh codec state, a buffer holding a zero-free payload of at
most `MAX_FRAME` bytes, its null terminator, and then `extra`, decodes to
exactly that payload, leaving `extra` buffered. -/
theorem recvFrame_accepts (p extra : List Nat) (hz : ∀ b ∈ p, b ≠ 0)
    (hlen : p.length ≤ 512) :
    recvFrame CodecState.fresh (p ++ 0 :: extra) =
      (.chunk p, CodecState.fresh, extra) := by
  unfold recvFrame decodeFrame
  simp only [CodecState.fresh, List.drop_zero, Nat.sub_zero, Nat.add_zero]
  have hwin : List.take ((Server.MAX_FRAME + 1) ⊓ (p ++ 0 :: extra).length) (p ++ 0 :: extra) =
      p ++ 0 :: List.take ((Server.MAX_FRAME + 1) ⊓ (p ++ 0 :: extra).length - p.length - 1) extra := by
    have hR : p.length + 1 ≤ (Server.MAX_FRAME + 1) ⊓ (p ++ 0 :: extra).length := by
      simp only [Server.MAX_FRAME, List.length_append, List.length_cons]
      omega
    rw [List.take_append_eq_append_take]
    rw [List.take_of_length_le (by omega)]
    congr 1
    have h2 : (Server.MAX_FRAME + 1) ⊓ (p ++ 0 :: extra).length - p.length =
        ((Server.MAX_FRAME + 1) ⊓ (p ++ 0 :: extra).length - p.length - 1) + 1 := by omega
    rw [h2]
    rfl
  rw [hwin, findIdx?_delim_append p hz _ 0]
  simp only [Nat.add_zero]
  rw [List.take_append_eq_append_take, List.take_of_length_le (Nat.le_refl _), Nat.sub_self,
      List.take_zero, List.append_nil]
  rw [List.drop_append_eq_append_drop, List.drop_of_length_le (by omega)]
  have h3 : p.length + 1 - p.length = 1 := by omega
  rw [h3]
  rfl

/-- From the fresh codec state, a buffer whose first 513 bytes are zero-free
(the payload is 513 bytes or longer) is a `MaxChunkLengthExceeded` error:
the decoder searches only `buf[0 .. max_length + 1]` and the buffer is longer
than `max_length`. -/
theorem recvFrame_rejects (p extra : List Nat) (hz : ∀ b ∈ p, b ≠ 0)
    (hlen : 513 ≤ p.length) :
    recvFrame CodecState.fresh (p ++ 0 :: extra) =
      (.overflow, ⟨0, true⟩, p ++ 0 :: extra) := by
  unfold recvFrame decodeFrame
  simp only [CodecState.fresh, List.drop_zero, Nat.sub_zero, Nat.add_zero]
  have hwin : List.take ((Server.MAX_FRAME + 1) ⊓ (p ++ 0 :: extra).length) (p ++ 0 :: extra) =
      List.take 513 p := by
    have hR : (Server.MAX_FRAME + 1) ⊓ (p ++ 0 :: extra).length = 513 := by
      simp only [Server.MAX_FRAME, List.length_append, List.length_cons]
      omega
    rw [hR, List.take_append_eq_append_take]
    have h2 : 513 - p.length = 0 := by omega
    rw [h2, List.take_zero, List.append_nil]
  rw [hwin, findIdx?_delim_none (List.take 513 p) (fun b hb => hz b (List.take_subset _ _ hb)) 0]
  simp only [List.length_append, List.length_cons, Server.MAX_FRAME, gt_iff_lt]
  rw [if_pos (by omega)]

-- ── Framing-to-raw handoff (C7) ──────────────────────────────────────────────

/-- Bytes the server accept arm (main.rs lines 153-156) writes to the parked
inbound socket: `inbound.write_all(&parts.read_buf)` first, then every byte
`copy_bidirectional` subsequently reads from `parts.io`. -/
def serverAcceptForwarded (read_buf unreadIo : List Nat) : List Nat :=
  read_buf ++ unreadIo

/-- Bytes the client data-connection task (client main.rs lines 170-172)
writes to the local service: `local.write_all(&parts.read_buf)` first, then
every byte `copy_bidirectional` subsequently reads from `parts.io`. -/
def clientAcceptForwarded (read_buf unreadIo : List Nat) : List Nat :=
  read_buf ++ unreadIo

-- ── Claim theorems: C3 and C7 ────────────────────────────────────────────────

/-- C3 counterexample: the claim says a frame whose payload is 512 bytes is
rejected.  It is not: the codec built by `Framed_::new` (max_length = 512,
tokio-util `AnyDelimiterCodec`) errors only when more than `max_length`
bytes precede the delimiter, so a 512-byte payload followed by the null
terminator — 513 bytes on the wire — decodes successfully. -/
theorem C3_512_byte_payload_accepted :
    recvFrame CodecState.fresh (List.replicate 512 49 ++ 0 :: []) =
      (.chunk (List.replicate 512 49), CodecState.fresh, []) ∧
    (List.replicate 512 49 : List Nat).length = 512 := by
  constructor
  · exact recvFrame_accepts (List.replicate 512 49) []
      (fun b hb => by simp [List.eq_of_mem_replicate hb])
      (by rw [List.length_replicate])
  · rw [List.length_replicate]

/-- C3 amended: the framed transport accepts a frame whose zero-free payload
is at most 512 bytes followed by the null terminator (in particular exactly
511 bytes plus null, and also exactly 512 plus null), and rejects with the
fatal `MaxChunkLengthExceeded` error any frame whose payload is 513 bytes or
more: every accepted frame is at most 513 bytes including the null
terminator, not 512 as claimed. -/
theorem C3_frame_size_boundary (p extra : List Nat) (hz : ∀ b ∈ p, b ≠ 0) :
    (p.length ≤ 512 →
      recvFrame CodecState.fresh (p ++ 0 :: extra) = (.chunk p, CodecState.fresh, extra))
    ∧ (513 ≤ p.length →
      recvFrame CodecState.fresh (p ++ 0 :: extra) =
        (.overflow, ⟨0, true⟩, p ++ 0 :: extra)) :=
  ⟨fun h => recvFrame_accepts p extra hz h, fun h => recvFrame_rejects p extra hz h⟩

/-- Closed instance of C3: a 511-byte payload plus null is accepted and a
513-byte payload plus null is rejected. -/
theorem C3_frame_size_boundary_witness :
    recvFrame CodecState.fresh (List.replicate 511 49 ++ 0 :: []) =
      (.chunk (List.replicate 511 49), CodecState.fresh, []) ∧
    recvFrame CodecState.fresh (List.replicate 513 49 ++ 0 :: []) =
      (.overflow, ⟨0, true⟩, List.replicate 513 49 ++ 0 :: []) := by
  constructor
  · exact (C3_frame_size_boundary (List.replicate 511 49) []
      (fun b hb => by simp [List.eq_of_mem_replicate hb])).1
      (by rw [List.length_replicate]; omega)
  · exact (C3_frame_size_boundary (List.replicate 513 49) []
      (fun b hb => by simp [List.eq_of_mem_replicate hb])).2
      (by rw [List.length_replicate])

/-- C7: on the framing-to-raw transition after `Accept(id)`, with the codec
having consumed the final frame `f ++ [0]` out of its buffer and `extra`
bytes left buffered past that frame boundary (`parts.read_buf`), both
endpoints first write `parts.read_buf` and then copy the socket: the bytes
delivered to the peer are exactly `extra ++ unread` — every byte past the
last consumed frame boundary, in order, with none lost. -/
theorem C7_handoff_preserves_buffered_bytes (f extra unread : List Nat)
    (hz : ∀ b ∈ f, b ≠ 0) (hlen : f.length ≤ 512) :
    recvFrame CodecState.fresh (f ++ 0 :: extra) = (.chunk f, CodecState.fresh, extra)
    ∧ serverAcceptForwarded extra unread = extra ++ unread
    ∧ clientAcceptForwarded extra unread = extra ++ unread
    ∧ (f ++ 0 :: extra) ++ unread = (f ++ [0]) ++ serverAcceptForwarded extra unread := by
  refine ⟨recvFrame_accepts f extra hz hlen, rfl, rfl, ?_⟩
  simp [serverAcceptForwarded]

/-- Closed instance of C7: three buffered payload bytes survive the handoff
ahead of the socket bytes. -/
theorem C7_handoff_preserves_buffered_bytes_witness :
    recvFrame CodecState.fresh ([123, 34, 125] ++ 0 :: [10, 11, 12]) =
      (.chunk [123, 34, 125], CodecState.fresh, [10, 11, 12]) ∧
    serverAcceptForwarded [10, 11, 12] [20, 21] = [10, 11, 12, 20, 21] := by
  constructor
  · exact (C7_handoff_preserves_buffered_bytes [123, 34, 125] [10, 11, 12] [20, 21]
      (by decide) (by decide)).1
  · exact (C7_handoff_preserves_buffered_bytes [123, 34, 125] [10, 11, 12] [20, 21]
      (by decide) (by decide)).2.1

end Sshx

namespace Sshx

-- ── Control messages (shared.rs lines 26-61; client copy identical) ──────────

/-- shared.rs lines 57-61: the declared tunnel protocol tag. -/
inductive Proto where
  | Tcp
  | Http
  deriving DecidableEq

/-- A `uuid::Uuid` as its 16 raw bytes (`Uuid::as_bytes`). -/
structure Uuid where
  bytes : List Nat
  deriving DecidableEq

/-- shared.rs lines 26-37: messages client → server. -/
inductive ClientMsg where
  | Hello (subdomain : String) (proto : Proto)
  | Authenticate (tag : String)
  | Accept (id : Uuid)
  deriving DecidableEq

/-- shared.rs lines 41-53: messages server → client. -/
inductive ServerMsg where
  | Challenge (nonce : Uuid)
  | Hello (public_port : Nat)
  | Heartbeat
  | Connection (id : Uuid)
  | Error (reason : String)
  deriving DecidableEq

-- ── SHA-256 and HMAC-SHA256 (the `sha2` and `hmac` crates used by auth.rs) ───

/-- Reduction of a Nat to a 32-bit word. -/
def w32 (n : Nat) : Nat := n % 4294967296

/-- 32-bit rotate right. -/
def rotr (x n : Nat) : Nat := w32 ((x >>> n) ||| (x <<< (32 - n)))

def bigSigma0 (x : Nat) : Nat := (rotr x 2) ^^^ (rotr x 13) ^^^ (rotr x 22)

def bigSigma1 (x : Nat) : Nat := (rotr x 6) ^^^ (rotr x 11) ^^^ (rotr x 25)

def smallSigma0 (x : Nat) : Nat := (rotr x 7) ^^^ (rotr x 18) ^^^ (x >>> 3)

def smallSigma1 (x : Nat) : Nat := (rotr x 17) ^^^ (rotr x 19) ^^^ (x >>> 10)

def ch (x y z : Nat) : Nat := (x &&& y) ^^^ ((x ^^^ 4294967295) &&& z)

def maj (x y z : Nat) : Nat := (x &&& y) ^^^ (x &&& z) ^^^ (y &&& z)

/-- The 64 SHA-256 round constants (FIPS 180-4). -/
def K : List Nat :=
  [1116352408, 1899447441, 3049323471, 3921009573, 961987163,
   1508970993, 2453635748, 2870763221, 3624381080, 310598401,
   607225278, 1426881987, 1925078388, 2162078206, 2614888103,
   3248222580, 3835390401, 4022224774, 264347078, 604807628,
   770255983, 1249150122, 1555081692, 1996064986, 2554220882,
   2821834349, 2952996808, 3210313671, 3336571891, 3584528711,
   113926993, 338241895, 666307205, 773529912, 1294757372,
   1396182291, 1695183700, 1986661051, 2177026350, 2456956037,
   2730485921, 2820302411, 3259730800, 3345764771, 3516065817,
   3600352804, 4094571909, 275423344, 430227734, 506948616,
   659060556, 883997877, 958139571, 1322822218, 1537002063,
   1747873779, 1955562222, 2024104815, 2227730452, 2361852424,
   2428436474, 2756734187, 3204031479, 3329325298]

/-- The SHA-256 initial hash value (FIPS 180-4). -/
def H0 : List Nat :=
  [1779033703, 3144134277, 1013904242, 2773480762,
   1359893119, 2600822924, 528734635, 1541459225]

/-- SHA-256 padding: append 0x80, zeros, and the 64-bit big-endian bit
length, to a multiple of 64 bytes. -/
def pad (msg : List Nat) : List Nat :=
  let l := msg.length
  let k := (64 - (l + 9) % 64) % 64
  let bits := 8 * l
  msg ++ [0x80] ++ List.replicate k 0 ++
    [w32 (bits >>> 56) % 256, (bits >>> 48) % 256, (bits >>> 40) % 256, (bits >>> 32) % 256,
     (bits >>> 24) % 256, (bits >>> 16) % 256, (bits >>> 8) % 256, bits % 256]

/-- Big-endian 4-byte groups to 32-bit words. -/
def bytesToWords : List Nat → List Nat
  | b0 :: b1 :: b2 :: b3 :: rest =>
      (((b0 * 256 + b1) * 256 + b2) * 256 + b3) :: bytesToWords rest
  | _ => []

/-- 32-bit words to big-endian bytes. -/
def wordsToBytes : List Nat → List Nat
  | [] => []
  | w :: rest =>
      (w >>> 24) % 256 :: (w >>> 16) % 256 :: (w >>> 8) % 256 :: w % 256 :: wordsToBytes rest

/-- Message-schedule extension: `window` holds the previous 16 words
W[t-16..t-1]; produces the next `n` words. -/
def extendSched (window : List Nat) : Nat → List Nat
  | 0 => []
  | n + 1 =>
    let next := w32 (smallSigma1 (window.getD 14 0) + window.getD 9 0 +
      smallSigma0 (window.getD 1 0) + window.getD 0 0)
    next :: extendSched (window.drop 1 ++ [next]) n

/-- The eight SHA-256 working variables. -/
structure H8 where
  a : Nat
  b : Nat
  c : Nat
  d : Nat
  e : Nat
  f : Nat
  g : Nat
  h : Nat
  deriving DecidableEq

def compressRound (s : H8) (kt wt : Nat) : H8 :=
  let t1 := w32 (s.h + bigSigma1 s.e + ch s.e s.f s.g + kt + wt)
  let t2 := w32 (bigSigma0 s.a + maj s.a s.b s.c)
  ⟨w32 (t1 + t2), s.a, s.b, s.c, w32 (s.d + t1), s.e, s.f, s.g⟩

def compressRounds (s : H8) : List Nat → List Nat → H8
  | kt :: ks, wt :: ws => compressRounds (compressRound s kt wt) ks ws
  | _, _ => s

def addH8 (x s : H8) : H8 :=
  ⟨w32 (x.a + s.a), w32 (x.b + s.b), w32 (x.c + s.c), w32 (x.d + s.d),
   w32 (x.e + s.e), w32 (x.f + s.f), w32 (x.g + s.g), w32 (x.h + s.h)⟩

def compressBlock (x : H8) (block : List Nat) : H8 :=
  let w16 := bytesToWords block
  let ws := w16 ++ extendSched w16 48
  addH8 x (compressRounds x K ws)

/-- Process the padded message 64 bytes at a time; `fuel` (any bound of at
least the block count, callers pass the byte length) keeps the recursion
structural so that proofs can evaluate it. -/
def sha256Blocks : Nat → H8 → List Nat → H8
  | _, x, [] => x
  | 0, x, _ => x
  | fuel + 1, x, l => sha256Blocks fuel (compressBlock x (l.take 64)) (l.drop 64)

def listToH8 : List Nat → H8
  | [a, b, c, d, e, f, g, h] => ⟨a, b, c, d, e, f, g, h⟩
  | _ => ⟨0, 0, 0, 0, 0, 0, 0, 0⟩

/-- SHA-256 of a byte string (matches the `sha2` crate; checked against the
FIPS 180-4 test vectors for "" and "abc"). -/
def sha256 (msg : List Nat) : List Nat :=
  let x := sha256Blocks (pad msg).length (listToH8 H0) (pad msg)
  wordsToBytes [x.a, x.b, x.c, x.d, x.e, x.f, x.g, x.h]

/-- HMAC-SHA256 as the `hmac` crate computes it (block size 64; keys longer
than a block are hashed first; checked against the RFC 4231 test vectors). -/
def hmacSha256 (key msg : List Nat) : List Nat :=
  let key1 := if 64 < key.length then sha256 key else key
  let kpad := key1 ++ List.replicate (64 - key1.length) 0
  let ipad := kpad.map (fun b => b ^^^ 0x36)
  let opad := kpad.map (fun b => b ^^^ 0x5c)
  sha256 (opad ++ sha256 (ipad ++ msg))

-- ── Hex encoding (the `hex` crate used by auth.rs) ───────────────────────────

/-- Lowercase hex digit for a value below 16 (hex::encode emits lowercase). -/
def hexDigitChar (n : Nat) : Char :=
  if n < 10 then Char.ofNat (48 + n) else Char.ofNat (87 + n)

/-- Models `hex::encode`. -/
def hexEncode (bs : List Nat) : String :=
  String.mk (bs.foldr (fun b acc => hexDigitChar (b / 16) :: hexDigitChar (b % 16) :: acc) [])

/-- Value of one hex digit; `hex::decode` accepts both letter cases. -/
def hexVal? (c : Char) : Option Nat :=
  if 48 ≤ c.toNat ∧ c.toNat ≤ 57 then some (c.toNat - 48)
  else if 97 ≤ c.toNat ∧ c.toNat ≤ 102 then some (c.toNat - 87)
  else if 65 ≤ c.toNat ∧ c.toNat ≤ 70 then some (c.toNat - 55)
  else none

/-- Models `hex::decode` on a character list: fails on odd length or a
non-hex character. -/
def hexDecodeList : List Char → Option (List Nat)
  | [] => some []
  | [_] => none
  | c1 :: c2 :: rest =>
    match hexVal? c1, hexVal? c2, hexDecodeList rest with
    | some hi, some lo, some bs => some ((16 * hi + lo) :: bs)
    | _, _, _ => none

/-- Models `hex::decode` on a Rust string. -/
def hexDecode (s : String) : Option (List Nat) := hexDecodeList s.data

-- ── Auth (src/server/src/auth.rs and src/client/src/auth.rs) ─────────────────

namespace Auth

/-- server/src/auth.rs lines 14-17: `Auth::new` hashes the secret once with
SHA-256; the digest is the HMAC-SHA256 key held in the `Auth` value. -/
def new (secret : List Nat) : List Nat := sha256 secret

/-- server/src/auth.rs lines 19-23: hex-encode HMAC-SHA256(key,
challenge-as-16-raw-bytes). -/
def answer (key : List Nat) (challenge : Uuid) : String :=
  hexEncode (hmacSha256 key challenge.bytes)

/-- server/src/auth.rs lines 25-33: decode the hex tag and compare against
the freshly computed MAC (`Mac::verify_slice`, a constant-time equality);
malformed hex yields `false` via `unwrap_or(false)`. -/
def validate (key : List Nat) (challenge : Uuid) (tag : String) : Bool :=
  match hexDecode tag with
  | some t => t == hmacSha256 key challenge.bytes
  | none => false

end Auth

namespace ClientAuth

/-- client/src/auth.rs lines 14-17: byte-for-byte the same key derivation as
the server. -/
def new (secret : List Nat) : List Nat := sha256 secret

/-- client/src/auth.rs lines 19-23: the tag the client sends in
`ClientMsg::Authenticate`. -/
def answer (key : List Nat) (challenge : Uuid) : String :=
  hexEncode (hmacSha256 key challenge.bytes)

end ClientAuth

end Sshx

namespace Sshx

-- ── Lemmas: hex roundtrip and MAC byte bounds ────────────────────────────────

theorem toNat_ofNat_valid (n : Nat) (h : n < 55296) : (Char.ofNat n).toNat = n := by
  have hv : Nat.isValidChar n := Or.inl h
  unfold Char.ofNat
  rw [dif_pos hv]
  unfold Char.ofNatAux Char.toNat
  simp [UInt32.toNat]

theorem hexVal?_hexDigitChar (n : Nat) (h : n < 16) : hexVal? (hexDigitChar n) = some n := by
  unfold hexDigitChar hexVal?
  by_cases h10 : n < 10
  · rw [if_pos h10]
    rw [show (Char.ofNat (48 + n)).toNat = 48 + n from toNat_ofNat_valid _ (by omega)]
    rw [if_pos (by omega)]
    congr 1
    omega
  · rw [if_neg h10]
    rw [show (Char.ofNat (87 + n)).toNat = 87 + n from toNat_ofNat_valid _ (by omega)]
    rw [if_neg (by omega), if_pos (by omega)]
    congr 1
    omega

theorem hexDecodeList_encode (bs : List Nat) (hb : ∀ b ∈ bs, b < 256) :
    hexDecodeList
      (bs.foldr (fun b acc => hexDigitChar (b / 16) :: hexDigitChar (b % 16) :: acc) []) =
      some bs := by
  induction bs with
  | nil => rfl
  | cons b bs ih =>
    simp only [List.foldr_cons]
    unfold hexDecodeList
    rw [hexVal?_hexDigitChar _ (by have := hb b (by simp); omega),
        hexVal?_hexDigitChar _ (by have := hb b (by simp); omega)]
    rw [ih (fun x hx => hb x (by simp [hx]))]
    dsimp only
    have h2 : 16 * (b / 16) + b % 16 = b := by omega
    rw [h2]

theorem hexDecode_hexEncode (bs : List Nat) (hb : ∀ b ∈ bs, b < 256) :
    hexDecode (hexEncode bs) = some bs := by
  unfold hexDecode hexEncode
  exact hexDecodeList_encode bs hb

theorem wordsToBytes_lt (ws : List Nat) : ∀ b ∈ wordsToBytes ws, b < 256 := by
  induction ws with
  | nil => intro b hb; simp [wordsToBytes] at hb
  | cons w ws ih =>
    intro b hb
    unfold wordsToBytes at hb
    simp only [List.mem_cons] at hb
    rcases hb with h | h | h | h | h
    · subst h; exact Nat.mod_lt _ (by omega)
    · subst h; exact Nat.mod_lt _ (by omega)
    · subst h; exact Nat.mod_lt _ (by omega)
    · subst h; exact Nat.mod_lt _ (by omega)
    · exact ih b h

theorem sha256_bytes_lt (msg : List Nat) : ∀ b ∈ sha256 msg, b < 256 := by
  unfold sha256
  exact wordsToBytes_lt _

theorem hmacSha256_bytes_lt (key msg : List Nat) : ∀ b ∈ hmacSha256 key msg, b < 256 := by
  unfold hmacSha256
  exact sha256_bytes_lt _

-- ── Claim theorems: C8 ───────────────────────────────────────────────────────

set_option maxRecDepth 100000 in
/-- C8 counterexample: the claim says altering any bit of the tag causes
rejection.  It does not: for the secret "hunter2" (bytes below) and the
challenge UUID 00010203-0405-0607-0809-0a0b0c0d0e0f, the honest client tag
starts with the letter b; flipping bit 5 of that first character (0x62 to
0x42, lowercase b to uppercase B) yields a different string that the server
validator still accepts, because hex::decode is case-insensitive. -/
theorem C8_tag_bit_flip_accepted :
    ClientAuth.answer (ClientAuth.new [104, 117, 110, 116, 101, 114, 50])
        ⟨[0, 1, 2, 3, 4, 5, 6, 7, 8, 9, 10, 11, 12, 13, 14, 15]⟩ =
      "b6ac160a7da00f89a5fe1eba2957812833e172f45a281b93f172256d333169aa" ∧
    ("B6ac160a7da00f89a5fe1eba2957812833e172f45a281b93f172256d333169aa" : String) ≠
      "b6ac160a7da00f89a5fe1eba2957812833e172f45a281b93f172256d333169aa" ∧
    ("B6ac160a7da00f89a5fe1eba2957812833e172f45a281b93f172256d333169aa").data.headD
        'x' ≠ ("b6ac160a7da00f89a5fe1eba2957812833e172f45a281b93f172256d333169aa").data.headD 'x' ∧
    Nat.xor (("B6ac160a7da00f89a5fe1eba2957812833e172f45a281b93f172256d333169aa").data.headD
        'x').toNat (("b6ac160a7da00f89a5fe1eba2957812833e172f45a281b93f172256d333169aa").data.headD
        'x').toNat = 32 ∧
    ("B6ac160a7da00f89a5fe1eba2957812833e172f45a281b93f172256d333169aa").data.tail =
      ("b6ac160a7da00f89a5fe1eba2957812833e172f45a281b93f172256d333169aa").data.tail ∧
    Auth.validate (Auth.new [104, 117, 110, 116, 101, 114, 50])
        ⟨[0, 1, 2, 3, 4, 5, 6, 7, 8, 9, 10, 11, 12, 13, 14, 15]⟩
        "B6ac160a7da00f89a5fe1eba2957812833e172f45a281b93f172256d333169aa" = true := by
  refine ⟨by rfl, by decide, by decide, by decide, by decide, by rfl⟩

/-- C8 amended: for every secret and challenge the server validator accepts
the client answer built from the same secret; a tag whose case-insensitive
hex decoding differs from the expected MAC (including malformed hex) is
rejected; and an altered secret is rejected whenever the MAC derived from it
differs — but a tag alteration that only changes hex letter case is still
accepted (see the counterexample), so rejection is in terms of the decoded
tag bytes, not the tag string. -/
theorem validate_hexDecode_some (key : List Nat) (c : Uuid) (tag : String) (t : List Nat)
    (h : hexDecode tag = some t) :
    Auth.validate key c tag = (t == hmacSha256 key c.bytes) := by
  unfold Auth.validate
  rw [h]

theorem validate_hexDecode_none (key : List Nat) (c : Uuid) (tag : String)
    (h : hexDecode tag = none) :
    Auth.validate key c tag = false := by
  unfold Auth.validate
  rw [h]

theorem hexDecode_answer (key : List Nat) (challenge : Uuid) :
    hexDecode (ClientAuth.answer key challenge) = some (hmacSha256 key challenge.bytes) := by
  unfold ClientAuth.answer
  exact hexDecode_hexEncode _ (hmacSha256_bytes_lt _ _)

theorem C8_hmac_validate_spec (secret : List Nat) (challenge : Uuid) :
    Auth.validate (Auth.new secret) challenge
      (ClientAuth.answer (ClientAuth.new secret) challenge) = true
    ∧ (∀ tag : String,
        hexDecode tag ≠ some (hmacSha256 (Auth.new secret) challenge.bytes) →
        Auth.validate (Auth.new secret) challenge tag = false)
    ∧ (∀ secret2 : List Nat,
        hmacSha256 (ClientAuth.new secret2) challenge.bytes ≠
          hmacSha256 (Auth.new secret) challenge.bytes →
        Auth.validate (Auth.new secret) challenge
          (ClientAuth.answer (ClientAuth.new secret2) challenge) = false) := by
  refine ⟨?_, ?_, ?_⟩
  · rw [validate_hexDecode_some _ _ _ _ (hexDecode_answer (ClientAuth.new secret) challenge)]
    rw [show ClientAuth.new secret = Auth.new secret from rfl]
    exact beq_self_eq_true _
  · intro tag hne
    cases hdt : hexDecode tag with
    | none => exact validate_hexDecode_none _ _ _ hdt
    | some t =>
      rw [validate_hexDecode_some _ _ _ _ hdt]
      have ht : t ≠ hmacSha256 (Auth.new secret) challenge.bytes := by
        intro he
        rw [hdt, he] at hne
        exact hne rfl
      exact beq_eq_false_iff_ne.mpr ht
  · intro secret2 hne
    rw [validate_hexDecode_some _ _ _ _ (hexDecode_answer (ClientAuth.new secret2) challenge)]
    exact beq_eq_false_iff_ne.mpr hne

set_option maxRecDepth 100000 in
/-- Closed instance of C8 (amended): a two-byte secret and a fixed challenge
accept the honest answer, and a tag that is not hex ("zz") is rejected. -/
theorem C8_hmac_validate_spec_witness :
    Auth.validate (Auth.new [104, 117]) ⟨[0, 1, 2, 3, 4, 5, 6, 7, 8, 9, 10, 11, 12, 13, 14, 15]⟩
      (ClientAuth.answer (ClientAuth.new [104, 117])
        ⟨[0, 1, 2, 3, 4, 5, 6, 7, 8, 9, 10, 11, 12, 13, 14, 15]⟩) = true
    ∧ Auth.validate (Auth.new [104, 117])
        ⟨[0, 1, 2, 3, 4, 5, 6, 7, 8, 9, 10, 11, 12, 13, 14, 15]⟩ "zz" = false := by
  constructor
  · exact (C8_hmac_validate_spec [104, 117]
      ⟨[0, 1, 2, 3, 4, 5, 6, 7, 8, 9, 10, 11, 12, 13, 14, 15]⟩).1
  · refine (C8_hmac_validate_spec [104, 117]
      ⟨[0, 1, 2, 3, 4, 5, 6, 7, 8, 9, 10, 11, 12, 13, 14, 15]⟩).2.1 "zz" ?_
    intro h
    rw [show hexDecode "zz" = none from rfl] at h
    exact Option.noConfusion h

end Sshx

namespace Sshx

-- ── Server handshake and the auth block of handle_control (C2) ───────────────

/-- Outcome of `recv_timeout::<ClientMsg>()` as `handshake_server` sees it
(auth.rs line 42): a decoded message (`Ok(Some(m))`), end of stream
(`Ok(None)`), the 5-second timeout (anyhow context "handshake timed out",
shared.rs line 85), or a frame/JSON decode failure (context "parse error",
shared.rs line 76). -/
inductive RecvOutcome where
  | msg (m : ClientMsg)
  | eof
  | timedOut
  | parseFailed

/-- Models `Auth::handshake_server` (auth.rs lines 36-49) after the challenge
send.  The error string is the anyhow display of each failure path:
"invalid secret" from the `ensure!` on a failed validation, "expected
Authenticate message" from the `bail!` reached on `Ok(None)` or a
wrong-variant message, and the contexts propagated by `?` from
`recv_timeout`. -/
def handshake_server (key : List Nat) (challenge : Uuid) (r : RecvOutcome) :
    Except String Unit :=
  match r with
  | .msg (.Authenticate tag) =>
      if Auth.validate key challenge tag then .ok () else .error "invalid secret"
  | .msg _ => .error "expected Authenticate message"
  | .eof => .error "expected Authenticate message"
  | .timedOut => .error "handshake timed out"
  | .parseFailed => .error "parse error"

/-- Models the auth block of `handle_control` (main.rs lines 120-125) when a
secret is configured: on handshake failure the server sends
`ServerMsg::Error(e.to_string())` and returns `Ok(())`, dropping (closing)
the connection; on success it proceeds.  Returns the message sent (if any)
and whether the connection is closed at this point. -/
def handle_control_auth (key : List Nat) (challenge : Uuid) (r : RecvOutcome) :
    Option ServerMsg × Bool :=
  match handshake_server key challenge r with
  | .ok () => (none, false)
  | .error e => (some (.Error e), true)

-- ── Claim theorems: C2 ───────────────────────────────────────────────────────

/-- C2 counterexample: the claim says every authentication failure is
reported with the reason string exactly "invalid secret".  It is not: a
wrong-variant first message is answered with
Error("expected Authenticate message") and a handshake timeout with
Error("handshake timed out"). -/
theorem C2_reason_not_always_invalid_secret :
    handle_control_auth [] ⟨[]⟩ (.msg (.Hello "x" .Tcp)) =
      (some (.Error "expected Authenticate message"), true) ∧
    handle_control_auth [] ⟨[]⟩ .timedOut =
      (some (.Error "handshake timed out"), true) ∧
    ("expected Authenticate message" : String) ≠ "invalid secret" ∧
    ("handshake timed out" : String) ≠ "invalid secret" := by
  refine ⟨rfl, rfl, by decide, by decide⟩

/-- C2 amended: on every server-side authentication failure the server sends
a control `Error` message and then closes the connection, but the reason
string is "invalid secret" only for the cryptographic failure (HMAC tag
mismatch or malformed hex, i.e. `validate` returning false); a missing or
wrong-variant `Authenticate` yields "expected Authenticate message" and a
handshake timeout yields "handshake timed out".  A valid tag proceeds
without closing. -/
theorem C2_auth_failure_reasons (key : List Nat) (challenge : Uuid) :
    (∀ tag, Auth.validate key challenge tag = false →
      handle_control_auth key challenge (.msg (.Authenticate tag)) =
        (some (.Error "invalid secret"), true))
    ∧ (∀ m : ClientMsg, (∀ tag, m ≠ .Authenticate tag) →
      handle_control_auth key challenge (.msg m) =
        (some (.Error "expected Authenticate message"), true))
    ∧ handle_control_auth key challenge .eof =
        (some (.Error "expected Authenticate message"), true)
    ∧ handle_control_auth key challenge .timedOut =
        (some (.Error "handshake timed out"), true)
    ∧ (∀ tag, Auth.validate key challenge tag = true →
      handle_control_auth key challenge (.msg (.Authenticate tag)) = (none, false)) := by
  refine ⟨?_, ?_, rfl, rfl, ?_⟩
  · intro tag hv
    unfold handle_control_auth handshake_server
    dsimp only
    rw [hv]
    rfl
  · intro m hm
    cases m with
    | Hello s p => rfl
    | Authenticate t => exact absurd rfl (hm t)
    | Accept u => rfl
  · intro tag hv
    unfold handle_control_auth handshake_server
    dsimp only
    rw [hv]
    rfl

/-- Closed instance of C2 (amended): a non-hex tag is rejected with
"invalid secret", and a wrong-variant message with
"expected Authenticate message". -/
theorem C2_auth_failure_reasons_witness :
    handle_control_auth [] ⟨[]⟩ (.msg (.Authenticate "zz")) =
      (some (.Error "invalid secret"), true) ∧
    handle_control_auth [] ⟨[]⟩ (.msg (.Hello "x" .Tcp)) =
      (some (.Error "expected Authenticate message"), true) := by
  constructor
  · exact (C2_auth_failure_reasons [] ⟨[]⟩).1 "zz" rfl
  · exact (C2_auth_failure_reasons [] ⟨[]⟩).2.1 (.Hello "x" .Tcp)
      (fun tag h => ClientMsg.noConfusion h)

end Sshx

namespace Sshx

-- ── serde_json serialization of the control messages (C9) ────────────────────
-- `Framed_::send` serializes with `serde_json::to_string` and `recv` parses
-- with `serde_json::from_slice` (shared.rs lines 74-91).  The derived
-- serializers use the externally-tagged serde enum encoding; `uuid::Uuid`
-- serializes as its hyphenated lowercase string and `Proto` as the variant
-- name string.  The definitions below embed that wire format; the parsers
-- are recursive-descent recognizers of the same grammar, faithful to the
-- derived deserializers on every serializer output (they accept both hex
-- letter cases in UUIDs, as `Uuid::parse_str` does, and every JSON string
-- escape that `serde_json` emits, plus the \\/ escape and non-surrogate
-- \\uXXXX forms).

/-- JSON string escaping as `serde_json` emits it: quote, backslash, the
five named control escapes, and \\u00XX (lowercase hex) for the remaining
control characters; everything else is passed through. -/
def jsonEscapeChar (c : Char) : List Char :=
  if c = '"' then ['\\', '"']
  else if c = '\\' then ['\\', '\\']
  else if c.toNat = 8 then ['\\', 'b']
  else if c.toNat = 9 then ['\\', 't']
  else if c.toNat = 10 then ['\\', 'n']
  else if c.toNat = 12 then ['\\', 'f']
  else if c.toNat = 13 then ['\\', 'r']
  else if c.toNat < 32 then
    ['\\', 'u', '0', '0', hexDigitChar (c.toNat / 16), hexDigitChar (c.toNat % 16)]
  else [c]

/-- A JSON string literal: quote, escaped content, quote. -/
def jsonStringLit (s : List Char) : List Char :=
  '"' :: (s.map jsonEscapeChar).flatten ++ ['"']

/-- Two lowercase hex chars of a byte. -/
def hexPairChars (b : Nat) : List Char := [hexDigitChar (b / 16), hexDigitChar (b % 16)]

def hexChars (bs : List Nat) : List Char := (bs.map hexPairChars).flatten

/-- The hyphenated lowercase rendering of a UUID (8-4-4-4-12), the format
`serde` uses for `uuid::Uuid` in a human-readable serializer. -/
def uuidHyphenated (u : Uuid) : List Char :=
  hexChars (u.bytes.take 4) ++ '-' ::
  (hexChars ((u.bytes.drop 4).take 2) ++ '-' ::
  (hexChars ((u.bytes.drop 6).take 2) ++ '-' ::
  (hexChars ((u.bytes.drop 8).take 2) ++ '-' ::
  hexChars (u.bytes.drop 10))))

/-- Decimal digits of `n`, most significant first; `fuel` only bounds the
recursion (any value at least `n` is exact). -/
def natDecAux : Nat → Nat → List Char
  | 0, _ => []
  | fuel + 1, n =>
    if n = 0 then []
    else natDecAux fuel (n / 10) ++ [Char.ofNat (48 + n % 10)]

/-- Decimal rendering of a `u16` as serde_json emits it. -/
def natDecChars (n : Nat) : List Char :=
  if n = 0 then ['0'] else natDecAux n n

/-- `Proto` serializes as the bare variant-name string. -/
def serializeProto : Proto → List Char
  | .Tcp => jsonStringLit ("Tcp").data
  | .Http => jsonStringLit ("Http").data

/-- `serde_json::to_string` of a `ClientMsg` (externally tagged). -/
def serializeClientMsg : ClientMsg → List Char
  | .Hello sub proto =>
    ['{'] ++ (jsonStringLit ("Hello").data ++ ([':', '{'] ++ (jsonStringLit ("subdomain").data ++
      ([':'] ++ (jsonStringLit sub.data ++ ([','] ++ (jsonStringLit ("proto").data ++
      ([':'] ++ (serializeProto proto ++ ['}', '}'])))))))))
  | .Authenticate tag =>
    ['{'] ++ (jsonStringLit ("Authenticate").data ++ ([':'] ++ (jsonStringLit tag.data ++ ['}'])))
  | .Accept id =>
    ['{'] ++ (jsonStringLit ("Accept").data ++ ([':', '"'] ++ (uuidHyphenated id ++ ['"', '}'])))

/-- `serde_json::to_string` of a `ServerMsg` (externally tagged; the unit
variant `Heartbeat` serializes as a bare string). -/
def serializeServerMsg : ServerMsg → List Char
  | .Challenge u =>
    ['{'] ++ (jsonStringLit ("Challenge").data ++ ([':', '"'] ++ (uuidHyphenated u ++ ['"', '}'])))
  | .Hello port =>
    ['{'] ++ (jsonStringLit ("Hello").data ++ ([':', '{'] ++ (jsonStringLit ("public_port").data ++
      ([':'] ++ (natDecChars port ++ ['}', '}'])))))
  | .Heartbeat => jsonStringLit ("Heartbeat").data
  | .Connection u =>
    ['{'] ++ (jsonStringLit ("Connection").data ++ ([':', '"'] ++ (uuidHyphenated u ++ ['"', '}'])))
  | .Error reason =>
    ['{'] ++ (jsonStringLit ("Error").data ++ ([':'] ++ (jsonStringLit reason.data ++ ['}'])))

-- ── The parser side ──────────────────────────────────────────────────────────

/-- JSON string-body scanner: consumes up to the closing quote, decoding the
escapes serde_json understands (surrogate escapes are rejected, a
simplification: the serializer never emits them); raw control characters are
an error.  `fuel` only bounds the recursion (callers pass the input length;
one character of input is consumed per step). -/
def parseStrBody : Nat → List Char → Option (List Char × List Char)
  | 0, _ => none
  | _ + 1, [] => none
  | fuel + 1, c :: rest =>
    if c = '"' then some ([], rest)
    else if c = '\\' then
      match rest with
      | [] => none
      | e :: rest2 =>
        if e = '"' then (parseStrBody fuel rest2).map (fun p => ('"' :: p.1, p.2))
        else if e = '\\' then (parseStrBody fuel rest2).map (fun p => ('\\' :: p.1, p.2))
        else if e = '/' then (parseStrBody fuel rest2).map (fun p => ('/' :: p.1, p.2))
        else if e = 'b' then (parseStrBody fuel rest2).map (fun p => (Char.ofNat 8 :: p.1, p.2))
        else if e = 't' then (parseStrBody fuel rest2).map (fun p => (Char.ofNat 9 :: p.1, p.2))
        else if e = 'n' then (parseStrBody fuel rest2).map (fun p => (Char.ofNat 10 :: p.1, p.2))
        else if e = 'f' then (parseStrBody fuel rest2).map (fun p => (Char.ofNat 12 :: p.1, p.2))
        else if e = 'r' then (parseStrBody fuel rest2).map (fun p => (Char.ofNat 13 :: p.1, p.2))
        else if e = 'u' then
          match rest2 with
          | h1 :: h2 :: h3 :: h4 :: rest3 =>
            match hexVal? h1, hexVal? h2, hexVal? h3, hexVal? h4 with
            | some a, some b, some c2, some d =>
              let v := ((a * 16 + b) * 16 + c2) * 16 + d
              if 55296 ≤ v ∧ v ≤ 57343 then none
              else (parseStrBody fuel rest3).map (fun p => (Char.ofNat v :: p.1, p.2))
            | _, _, _, _ => none
          | _ => none
        else none
    else if c.toNat < 32 then none
    else (parseStrBody fuel rest).map (fun p => (c :: p.1, p.2))

/-- Parse a JSON string literal, returning its decoded content and the rest
of the input. -/
def parseStringLit : List Char → Option (List Char × List Char)
  | '"' :: rest => parseStrBody rest.length rest
  | _ => none

/-- Expect an exact literal prefix, returning the remaining input. -/
def expects : List Char → List Char → Option (List Char)
  | [], l => some l
  | c :: cs, d :: l => if d = c then expects cs l else none
  | _ :: _, [] => none

def parseHexByte : List Char → Option (Nat × List Char)
  | c1 :: c2 :: rest =>
    match hexVal? c1, hexVal? c2 with
    | some hi, some lo => some (16 * hi + lo, rest)
    | _, _ => none
  | _ => none

def parseHexBytes : Nat → List Char → Option (List Nat × List Char)
  | 0, l => some ([], l)
  | k + 1, l =>
    match parseHexByte l with
    | some (b, rest) =>
      match parseHexBytes k rest with
      | some (bs, rest2) => some (b :: bs, rest2)
      | none => none
    | none => none

/-- Parse a hyphenated UUID (case-insensitive hex, as `Uuid::parse_str`
accepts). -/
def parseUuidChars (l : List Char) : Option (Uuid × List Char) :=
  match parseHexBytes 4 l with
  | some (b1, l1) =>
    match expects ['-'] l1 with
    | some l2 =>
      match parseHexBytes 2 l2 with
      | some (b2, l3) =>
        match expects ['-'] l3 with
        | some l4 =>
          match parseHexBytes 2 l4 with
          | some (b3, l5) =>
            match expects ['-'] l5 with
            | some l6 =>
              match parseHexBytes 2 l6 with
              | some (b4, l7) =>
                match expects ['-'] l7 with
                | some l8 =>
                  match parseHexBytes 6 l8 with
                  | some (b5, l9) => some (⟨b1 ++ (b2 ++ (b3 ++ (b4 ++ b5)))⟩, l9)
                  | none => none
                | none => none
              | none => none
            | none => none
          | none => none
        | none => none
      | none => none
    | none => none
  | none => none

def isDigitChar (c : Char) : Bool := 48 ≤ c.toNat && c.toNat ≤ 57

/-- Maximal-munch decimal scanner with an accumulator. -/
def parseNatAux : List Char → Nat → Nat × List Char
  | c :: rest, acc =>
    if isDigitChar c then parseNatAux rest (10 * acc + (c.toNat - 48)) else (acc, c :: rest)
  | [], acc => (acc, [])

/-- Parse a decimal number (at least one digit). -/
def parseNatNum : List Char → Option (Nat × List Char)
  | c :: rest => if isDigitChar c then some (parseNatAux (c :: rest) 0) else none
  | [] => none

def parseProto (l : List Char) : Option (Proto × List Char) :=
  match parseStringLit l with
  | some (s, rest) =>
    if s = ("Tcp").data then some (.Tcp, rest)
    else if s = ("Http").data then some (.Http, rest)
    else none
  | none => none

/-- `serde_json::from_slice::<ClientMsg>` on a full frame: an object with a
single variant-name key; trailing input is rejected. -/
def parseClientMsg (l : List Char) : Option ClientMsg :=
  match expects ['{'] l with
  | some l1 =>
    match parseStringLit l1 with
    | some (key, l2) =>
      if key = ("Hello").data then
        match expects [':', '{'] l2 with
        | some l3 =>
          match parseStringLit l3 with
          | some (fkey, l4) =>
            if fkey = ("subdomain").data then
              match expects [':'] l4 with
              | some l5 =>
                match parseStringLit l5 with
                | some (sub, l6) =>
                  match expects [','] l6 with
                  | some l7 =>
                    match parseStringLit l7 with
                    | some (fkey2, l8) =>
                      if fkey2 = ("proto").data then
                        match expects [':'] l8 with
                        | some l9 =>
                          match parseProto l9 with
                          | some (proto, l10) =>
                            if l10 = ['}', '}'] then some (.Hello (String.mk sub) proto)
                            else none
                          | none => none
                        | none => none
                      else none
                    | none => none
                  | none => none
                | none => none
              | none => none
            else none
          | none => none
        | none => none
      else if key = ("Authenticate").data then
        match expects [':'] l2 with
        | some l3 =>
          match parseStringLit l3 with
          | some (tag, l4) => if l4 = ['}'] then some (.Authenticate (String.mk tag)) else none
          | none => none
        | none => none
      else if key = ("Accept").data then
        match expects [':', '"'] l2 with
        | some l3 =>
          match parseUuidChars l3 with
          | some (u, l4) => if l4 = ['"', '}'] then some (.Accept u) else none
          | none => none
        | none => none
      else none
    | none => none
  | none => none

/-- `serde_json::from_slice::<ServerMsg>` on a full frame; the unit variant
`Heartbeat` is parsed from a bare string. -/
def parseServerMsg (l : List Char) : Option ServerMsg :=
  match expects ['{'] l with
  | some l1 =>
    match parseStringLit l1 with
    | some (key, l2) =>
      if key = ("Challenge").data then
        match expects [':', '"'] l2 with
        | some l3 =>
          match parseUuidChars l3 with
          | some (u, l4) => if l4 = ['"', '}'] then some (.Challenge u) else none
          | none => none
        | none => none
      else if key = ("Hello").data then
        match expects [':', '{'] l2 with
        | some l3 =>
          match parseStringLit l3 with
          | some (fkey, l4) =>
            if fkey = ("public_port").data then
              match expects [':'] l4 with
              | some l5 =>
                match parseNatNum l5 with
                | some (n, l6) =>
                  if n < 65536 ∧ l6 = ['}', '}'] then some (.Hello n) else none
                | none => none
              | none => none
            else none
          | none => none
        | none => none
      else if key = ("Connection").data then
        match expects [':', '"'] l2 with
        | some l3 =>
          match parseUuidChars l3 with
          | some (u, l4) => if l4 = ['"', '}'] then some (.Connection u) else none
          | none => none
        | none => none
      else if key = ("Error").data then
        match expects [':'] l2 with
        | some l3 =>
          match parseStringLit l3 with
          | some (str, l4) => if l4 = ['}'] then some (.Error (String.mk str)) else none
          | none => none
        | none => none
      else none
    | none => none
  | none =>
    match parseStringLit l with
    | some (str, rest) =>
      if str = ("Heartbeat").data ∧ rest = [] then some .Heartbeat else none
    | none => none

end Sshx

namespace Sshx

-- ── Roundtrip lemmas: strings, uuids, numbers, protos ────────────────────────

theorem parseStrBody_escape (c : Char) (tail : List Char) (fuel : Nat) :
    parseStrBody (fuel + 1) (jsonEscapeChar c ++ tail) =
      (parseStrBody fuel tail).map (fun p => (c :: p.1, p.2)) := by
  unfold jsonEscapeChar
  by_cases h1 : c = '"'
  · subst h1
    simp [parseStrBody]
  · rw [if_neg h1]
    by_cases h2 : c = '\\'
    · subst h2
      simp [parseStrBody]
    · rw [if_neg h2]
      by_cases h3 : c.toNat = 8
      · rw [if_pos h3]
        have hcc : Char.ofNat 8 = c := by rw [← h3, Char.ofNat_toNat]
        simp [parseStrBody]
        rw [hcc]
      · rw [if_neg h3]
        by_cases h4 : c.toNat = 9
        · rw [if_pos h4]
          have hcc : Char.ofNat 9 = c := by rw [← h4, Char.ofNat_toNat]
          simp [parseStrBody]
          rw [hcc]
        · rw [if_neg h4]
          by_cases h5 : c.toNat = 10
          · rw [if_pos h5]
            have hcc : Char.ofNat 10 = c := by rw [← h5, Char.ofNat_toNat]
            simp [parseStrBody]
            rw [hcc]
          · rw [if_neg h5]
            by_cases h6 : c.toNat = 12
            · rw [if_pos h6]
              have hcc : Char.ofNat 12 = c := by rw [← h6, Char.ofNat_toNat]
              simp [parseStrBody]
              rw [hcc]
            · rw [if_neg h6]
              by_cases h7 : c.toNat = 13
              · rw [if_pos h7]
                have hcc : Char.ofNat 13 = c := by rw [← h7, Char.ofNat_toNat]
                simp [parseStrBody]
                rw [hcc]
              · rw [if_neg h7]
                by_cases h8 : c.toNat < 32
                · rw [if_pos h8]
                  have hv1 : hexVal? (hexDigitChar (c.toNat / 16)) = some (c.toNat / 16) :=
                    hexVal?_hexDigitChar _ (by omega)
                  have hv2 : hexVal? (hexDigitChar (c.toNat % 16)) = some (c.toNat % 16) :=
                    hexVal?_hexDigitChar _ (by omega)
                  have hz : hexVal? '0' = some 0 := by decide
                  have hval : ((0 * 16 + 0) * 16 + c.toNat / 16) * 16 + c.toNat % 16 =
                      c.toNat := by omega
                  have hns : ¬(55296 ≤ c.toNat ∧ c.toNat ≤ 57343) := by omega
                  simp only [parseStrBody, List.append_eq, List.cons_append, List.nil_append]
                  rw [if_neg (by decide), if_pos (by decide)]
                  rw [if_neg (by decide), if_neg (by decide), if_neg (by decide),
                      if_neg (by decide), if_neg (by decide), if_neg (by decide),
                      if_neg (by decide), if_neg (by decide), if_pos (by decide)]
                  rw [hz, hv1, hv2]
                  simp only [hval]
                  rw [if_neg hns, Char.ofNat_toNat]
                · rw [if_neg h8]
                  simp only [List.cons_append, List.nil_append, List.append_eq, parseStrBody]
                  rw [if_neg h1, if_neg h2, if_neg (by omega)]

theorem parseStrBody_roundtrip (s : List Char) : ∀ (fuel : Nat), s.length < fuel →
    ∀ rest, parseStrBody fuel ((s.map jsonEscapeChar).flatten ++ '"' :: rest) =
      some (s, rest) := by
  induction s with
  | nil =>
    intro fuel hf rest
    match fuel, hf with
    | fuel + 1, _ => simp [parseStrBody]
  | cons c s ih =>
    intro fuel hf rest
    match fuel, hf with
    | fuel + 1, hf =>
      simp only [List.map_cons, List.flatten_cons, List.append_assoc]
      rw [parseStrBody_escape c _ fuel]
      rw [ih fuel (by simpa using hf) rest]
      rfl

theorem escLen_ge (s : List Char) : s.length ≤ ((s.map jsonEscapeChar).flatten).length := by
  induction s with
  | nil => simp
  | cons c s ih =>
    simp only [List.map_cons, List.flatten_cons, List.length_append, List.length_cons]
    have : 1 ≤ (jsonEscapeChar c).length := by
      unfold jsonEscapeChar
      repeat' split
      all_goals simp
    omega

theorem parseStringLit_roundtrip (s : String) (rest : List Char) :
    parseStringLit (jsonStringLit s.data ++ rest) = some (s.data, rest) := by
  unfold jsonStringLit parseStringLit
  simp only [List.cons_append, List.append_assoc, List.nil_append]
  rw [parseStrBody_roundtrip]
  simp only [List.length_append, List.length_cons]
  have := escLen_ge s.data
  omega

theorem expects_append (pre l : List Char) : expects pre (pre ++ l) = some l := by
  induction pre with
  | nil => rfl
  | cons c cs ih =>
    simp only [List.cons_append, expects, if_pos rfl]
    exact ih

theorem parseHexByte_roundtrip (b : Nat) (hb : b < 256) (rest : List Char) :
    parseHexByte (hexPairChars b ++ rest) = some (b, rest) := by
  unfold hexPairChars parseHexByte
  simp only [List.cons_append, List.nil_append]
  rw [hexVal?_hexDigitChar _ (by omega), hexVal?_hexDigitChar _ (by omega)]
  dsimp only
  have h : 16 * (b / 16) + b % 16 = b := by omega
  rw [h]

theorem parseHexBytes_roundtrip (bs : List Nat) (hb : ∀ b ∈ bs, b < 256) (rest : List Char) :
    parseHexBytes bs.length (hexChars bs ++ rest) = some (bs, rest) := by
  induction bs with
  | nil => rfl
  | cons b bs ih =>
    simp only [List.length_cons, hexChars, List.map_cons, List.flatten_cons, List.append_assoc]
    unfold parseHexBytes
    rw [parseHexByte_roundtrip b (hb b (by simp)) _]
    dsimp only
    have ih2 := ih (fun x hx => hb x (by simp [hx]))
    unfold hexChars at ih2
    rw [ih2]

theorem uuid_reassemble (b : List Nat) (_h16 : b.length = 16) :
    b.take 4 ++ ((b.drop 4).take 2 ++ ((b.drop 6).take 2 ++ ((b.drop 8).take 2 ++ b.drop 10))) =
      b := by
  have h4 : b.take 4 ++ (b.drop 4).take 2 = b.take 6 := by
    rw [show (6 : Nat) = 4 + 2 from rfl, List.take_add]
  have h6 : b.take 6 ++ (b.drop 6).take 2 = b.take 8 := by
    rw [show (8 : Nat) = 6 + 2 from rfl, List.take_add]
  have h8 : b.take 8 ++ (b.drop 8).take 2 = b.take 10 := by
    rw [show (10 : Nat) = 8 + 2 from rfl, List.take_add]
  calc b.take 4 ++ ((b.drop 4).take 2 ++ ((b.drop 6).take 2 ++ ((b.drop 8).take 2 ++ b.drop 10)))
      = (((b.take 4 ++ (b.drop 4).take 2) ++ (b.drop 6).take 2) ++ (b.drop 8).take 2) ++
        b.drop 10 := by simp [List.append_assoc]
    _ = b.take 10 ++ b.drop 10 := by rw [h4, h6, h8]
    _ = b := List.take_append_drop 10 b

theorem parseUuid_roundtrip (u : Uuid) (h16 : u.bytes.length = 16)
    (hb : ∀ b ∈ u.bytes, b < 256) (rest : List Char) :
    parseUuidChars (uuidHyphenated u ++ rest) = some (u, rest) := by
  unfold uuidHyphenated parseUuidChars
  have l1 : (u.bytes.take 4).length = 4 := by rw [List.length_take]; omega
  have l2 : ((u.bytes.drop 4).take 2).length = 2 := by
    rw [List.length_take, List.length_drop]; omega
  have l3 : ((u.bytes.drop 6).take 2).length = 2 := by
    rw [List.length_take, List.length_drop]; omega
  have l4 : ((u.bytes.drop 8).take 2).length = 2 := by
    rw [List.length_take, List.length_drop]; omega
  have l5 : (u.bytes.drop 10).length = 6 := by rw [List.length_drop]; omega
  have m1 : ∀ b ∈ u.bytes.take 4, b < 256 := fun b hx => hb b (List.take_subset _ _ hx)
  have m2 : ∀ b ∈ (u.bytes.drop 4).take 2, b < 256 :=
    fun b hx => hb b (List.drop_subset _ _ (List.take_subset _ _ hx))
  have m3 : ∀ b ∈ (u.bytes.drop 6).take 2, b < 256 :=
    fun b hx => hb b (List.drop_subset _ _ (List.take_subset _ _ hx))
  have m4 : ∀ b ∈ (u.bytes.drop 8).take 2, b < 256 :=
    fun b hx => hb b (List.drop_subset _ _ (List.take_subset _ _ hx))
  have m5 : ∀ b ∈ u.bytes.drop 10, b < 256 := fun b hx => hb b (List.drop_subset _ _ hx)
  simp only [List.append_assoc, List.cons_append]
  have e1 := parseHexBytes_roundtrip (u.bytes.take 4) m1
    ('-' :: (hexChars ((u.bytes.drop 4).take 2) ++ ('-' :: (hexChars ((u.bytes.drop 6).take 2) ++
      ('-' :: (hexChars ((u.bytes.drop 8).take 2) ++ ('-' :: (hexChars (u.bytes.drop 10) ++
        rest))))))))
  rw [l1] at e1
  rw [e1]
  dsimp only
  rw [show ∀ l : List Char, expects ['-'] ('-' :: l) = some l from
    fun l => expects_append ['-'] l]
  dsimp only
  have e2 := parseHexBytes_roundtrip ((u.bytes.drop 4).take 2) m2
    ('-' :: (hexChars ((u.bytes.drop 6).take 2) ++
      ('-' :: (hexChars ((u.bytes.drop 8).take 2) ++ ('-' :: (hexChars (u.bytes.drop 10) ++
        rest))))))
  rw [l2] at e2
  rw [e2]
  dsimp only
  rw [show ∀ l : List Char, expects ['-'] ('-' :: l) = some l from
    fun l => expects_append ['-'] l]
  dsimp only
  have e3 := parseHexBytes_roundtrip ((u.bytes.drop 6).take 2) m3
    ('-' :: (hexChars ((u.bytes.drop 8).take 2) ++ ('-' :: (hexChars (u.bytes.drop 10) ++ rest))))
  rw [l3] at e3
  rw [e3]
  dsimp only
  rw [show ∀ l : List Char, expects ['-'] ('-' :: l) = some l from
    fun l => expects_append ['-'] l]
  dsimp only
  have e4 := parseHexBytes_roundtrip ((u.bytes.drop 8).take 2) m4
    ('-' :: (hexChars (u.bytes.drop 10) ++ rest))
  rw [l4] at e4
  rw [e4]
  dsimp only
  rw [show ∀ l : List Char, expects ['-'] ('-' :: l) = some l from
    fun l => expects_append ['-'] l]
  dsimp only
  have e5 := parseHexBytes_roundtrip (u.bytes.drop 10) m5 rest
  rw [l5] at e5
  rw [e5]
  dsimp only
  rw [uuid_reassemble u.bytes h16]

end Sshx

namespace Sshx

-- ── Roundtrip lemmas: numbers ────────────────────────────────────────────────

theorem natDecAux_zero (fuel : Nat) : natDecAux fuel 0 = [] := by
  cases fuel with
  | zero => rfl
  | succ n => simp [natDecAux]

theorem parseNatAux_stop (acc : Nat) (l : List Char)
    (h : ∀ c rest, l = c :: rest → isDigitChar c = false) :
    parseNatAux l acc = (acc, l) := by
  cases l with
  | nil => rfl
  | cons c rest =>
    unfold parseNatAux
    rw [h c rest rfl]
    simp

theorem digit_char_props (d : Nat) (h : d < 10) :
    isDigitChar (Char.ofNat (48 + d)) = true ∧ (Char.ofNat (48 + d)).toNat - 48 = d := by
  have ht : (Char.ofNat (48 + d)).toNat = 48 + d := toNat_ofNat_valid _ (by omega)
  constructor
  · simp [isDigitChar, ht]
    omega
  · omega

theorem parseNatAux_cons_digit (c : Char) (hc : isDigitChar c = true) (rest : List Char)
    (acc : Nat) :
    parseNatAux (c :: rest) acc = parseNatAux rest (10 * acc + (c.toNat - 48)) := by
  conv_lhs => unfold parseNatAux
  rw [hc, if_pos rfl]

theorem parseNatAux_digits (fuel : Nat) : ∀ n acc rest, 1 ≤ n → n ≤ fuel →
    parseNatAux (natDecAux fuel n ++ rest) acc =
      parseNatAux rest (acc * 10 ^ (natDecAux fuel n).length + n) := by
  induction fuel with
  | zero => intro n acc rest h1 h2; omega
  | succ fuel ih =>
    intro n acc rest h1 h2
    unfold natDecAux
    rw [if_neg (by omega)]
    by_cases h10 : n < 10
    · have hq : n / 10 = 0 := by omega
      rw [hq, natDecAux_zero]
      simp only [List.nil_append, List.cons_append, List.length_cons, List.length_nil]
      rw [parseNatAux_cons_digit _ (digit_char_props (n % 10) (by omega)).1]
      rw [(digit_char_props (n % 10) (by omega)).2]
      congr 1
      have hn : n % 10 = n := by omega
      rw [hn, pow_one]
      omega
    · have hq1 : 1 ≤ n / 10 := by omega
      have hq2 : n / 10 ≤ fuel := by omega
      rw [List.append_assoc]
      simp only [List.cons_append, List.nil_append]
      rw [ih (n / 10) acc (Char.ofNat (48 + n % 10) :: rest) hq1 hq2]
      rw [parseNatAux_cons_digit _ (digit_char_props (n % 10) (by omega)).1]
      rw [(digit_char_props (n % 10) (by omega)).2]
      congr 1
      simp only [List.length_append, List.length_cons, List.length_nil]
      rw [pow_succ, ← Nat.mul_assoc]
      have hmod : 10 * (n / 10) + n % 10 = n := by omega
      generalize hA : acc * 10 ^ (natDecAux fuel (n / 10)).length = A
      omega

theorem natDecAux_ne_nil (fuel n : Nat) (h1 : 1 ≤ n) (h2 : n ≤ fuel) :
    natDecAux fuel n ≠ [] := by
  cases fuel with
  | zero => omega
  | succ f =>
    unfold natDecAux
    rw [if_neg (by omega)]
    simp

theorem natDecAux_all_digits (fuel : Nat) :
    ∀ n c, c ∈ natDecAux fuel n → isDigitChar c = true := by
  induction fuel with
  | zero => intro n c hc; simp [natDecAux] at hc
  | succ f ih =>
    intro n c hc
    unfold natDecAux at hc
    by_cases h0 : n = 0
    · rw [if_pos h0] at hc
      simp at hc
    · rw [if_neg h0] at hc
      rw [List.mem_append] at hc
      cases hc with
      | inl h => exact ih _ c h
      | inr h =>
        simp at h
        subst h
        exact (digit_char_props (n % 10) (by omega)).1

theorem parseNatNum_roundtrip (n : Nat) (rest : List Char)
    (hrest : ∀ c rest2, rest = c :: rest2 → isDigitChar c = false) :
    parseNatNum (natDecChars n ++ rest) = some (n, rest) := by
  unfold natDecChars
  by_cases h0 : n = 0
  · subst h0
    rw [if_pos rfl]
    simp only [List.cons_append, List.nil_append]
    unfold parseNatNum
    dsimp only
    rw [if_pos (by decide)]
    rw [parseNatAux_cons_digit _ (by decide)]
    have hacc : 10 * 0 + (Char.toNat '0' - 48) = 0 := by decide
    rw [hacc]
    rw [parseNatAux_stop 0 rest hrest]
  · rw [if_neg h0]
    obtain ⟨c, t, hct⟩ : ∃ c t, natDecAux n n = c :: t := by
      cases hh : natDecAux n n with
      | nil => exact absurd hh (natDecAux_ne_nil n n (by omega) (by omega))
      | cons c t => exact ⟨c, t, rfl⟩
    rw [hct]
    simp only [List.cons_append]
    unfold parseNatNum
    dsimp only
    rw [if_pos (natDecAux_all_digits n n c (by rw [hct]; simp))]
    rw [show c :: (t ++ rest) = (c :: t) ++ rest from rfl, ← hct]
    rw [parseNatAux_digits n n 0 rest (by omega) (Nat.le_refl n)]
    rw [Nat.zero_mul, Nat.zero_add]
    rw [parseNatAux_stop n rest hrest]

theorem parseProto_roundtrip (p : Proto) (rest : List Char) :
    parseProto (serializeProto p ++ rest) = some (p, rest) := by
  cases p with
  | Tcp =>
    unfold serializeProto parseProto
    rw [parseStringLit_roundtrip "Tcp" rest]
    dsimp only
    rw [if_pos rfl]
  | Http =>
    unfold serializeProto parseProto
    rw [parseStringLit_roundtrip "Http" rest]
    dsimp only
    rw [if_neg (by decide), if_pos rfl]

-- ── Roundtrip lemmas: whole messages ─────────────────────────────────────────

theorem parseClientMsg_roundtrip (m : ClientMsg)
    (hu : ∀ u : Uuid, m = .Accept u → u.bytes.length = 16 ∧ ∀ b ∈ u.bytes, b < 256) :
    parseClientMsg (serializeClientMsg m) = some m := by
  cases m with
  | Hello sub proto =>
    unfold serializeClientMsg parseClientMsg
    rw [expects_append ['{'] _]
    dsimp only
    rw [parseStringLit_roundtrip "Hello" _]
    dsimp only
    rw [if_pos rfl]
    rw [expects_append [':', '{'] _]
    dsimp only
    rw [parseStringLit_roundtrip "subdomain" _]
    dsimp only
    rw [if_pos rfl]
    rw [expects_append [':'] _]
    dsimp only
    rw [parseStringLit_roundtrip sub _]
    dsimp only
    rw [expects_append [','] _]
    dsimp only
    rw [parseStringLit_roundtrip "proto" _]
    dsimp only
    rw [if_pos rfl]
    rw [expects_append [':'] _]
    dsimp only
    rw [parseProto_roundtrip proto _]
    dsimp only
    rw [if_pos rfl]
  | Authenticate tag =>
    unfold serializeClientMsg parseClientMsg
    rw [expects_append ['{'] _]
    dsimp only
    rw [parseStringLit_roundtrip "Authenticate" _]
    dsimp only
    rw [if_neg (by decide), if_pos rfl]
    rw [expects_append [':'] _]
    dsimp only
    rw [parseStringLit_roundtrip tag _]
    dsimp only
    rw [if_pos rfl]
  | Accept id =>
    unfold serializeClientMsg parseClientMsg
    rw [expects_append ['{'] _]
    dsimp only
    rw [parseStringLit_roundtrip "Accept" _]
    dsimp only
    rw [if_neg (by decide), if_neg (by decide), if_pos rfl]
    rw [expects_append [':', '"'] _]
    dsimp only
    rw [parseUuid_roundtrip id (hu id rfl).1 (hu id rfl).2 _]
    dsimp only
    rw [if_pos rfl]

theorem parseServerMsg_roundtrip (m : ServerMsg)
    (hu : ∀ u : Uuid, (m = .Challenge u ∨ m = .Connection u) →
      u.bytes.length = 16 ∧ ∀ b ∈ u.bytes, b < 256)
    (hp : ∀ n : Nat, m = .Hello n → n < 65536) :
    parseServerMsg (serializeServerMsg m) = some m := by
  cases m with
  | Challenge u =>
    unfold serializeServerMsg parseServerMsg
    rw [expects_append ['{'] _]
    dsimp only
    rw [parseStringLit_roundtrip "Challenge" _]
    dsimp only
    rw [if_pos rfl]
    rw [expects_append [':', '"'] _]
    dsimp only
    rw [parseUuid_roundtrip u (hu u (Or.inl rfl)).1 (hu u (Or.inl rfl)).2 _]
    dsimp only
    rw [if_pos rfl]
  | Hello port =>
    unfold serializeServerMsg parseServerMsg
    rw [expects_append ['{'] _]
    dsimp only
    rw [parseStringLit_roundtrip "Hello" _]
    dsimp only
    rw [if_neg (by decide), if_pos rfl]
    rw [expects_append [':', '{'] _]
    dsimp only
    rw [parseStringLit_roundtrip "public_port" _]
    dsimp only
    rw [if_pos rfl]
    rw [expects_append [':'] _]
    dsimp only
    rw [parseNatNum_roundtrip port ['}', '}'] (by intro c r2 h; cases h; rfl)]
    dsimp only
    rw [if_pos ⟨hp port rfl, rfl⟩]
  | Heartbeat =>
    decide
  | Connection u =>
    unfold serializeServerMsg parseServerMsg
    rw [expects_append ['{'] _]
    dsimp only
    rw [parseStringLit_roundtrip "Connection" _]
    dsimp only
    rw [if_neg (by decide), if_neg (by decide), if_pos rfl]
    rw [expects_append [':', '"'] _]
    dsimp only
    rw [parseUuid_roundtrip u (hu u (Or.inr rfl)).1 (hu u (Or.inr rfl)).2 _]
    dsimp only
    rw [if_pos rfl]
  | Error reason =>
    unfold serializeServerMsg parseServerMsg
    rw [expects_append ['{'] _]
    dsimp only
    rw [parseStringLit_roundtrip "Error" _]
    dsimp only
    rw [if_neg (by decide), if_neg (by decide), if_neg (by decide), if_pos rfl]
    rw [expects_append [':'] _]
    dsimp only
    rw [parseStringLit_roundtrip reason _]
    dsimp only
    rw [if_pos rfl]

-- ── Claim theorem: C9 ────────────────────────────────────────────────────────

/-- C9: for every control-message variant with every legal payload —
subdomains, tags and error reasons any Rust string, UUID payloads 16 bytes,
ports in u16 range — parsing the serialized JSON frame yields back the
original message on both the client → server and server → client sums. -/
theorem C9_parse_serialize_roundtrip :
    (∀ m : ClientMsg,
      (∀ u : Uuid, m = .Accept u → u.bytes.length = 16 ∧ ∀ b ∈ u.bytes, b < 256) →
      parseClientMsg (serializeClientMsg m) = some m)
    ∧ (∀ m : ServerMsg,
      (∀ u : Uuid, (m = .Challenge u ∨ m = .Connection u) →
        u.bytes.length = 16 ∧ ∀ b ∈ u.bytes, b < 256) →
      (∀ n : Nat, m = .Hello n → n < 65536) →
      parseServerMsg (serializeServerMsg m) = some m) :=
  ⟨parseClientMsg_roundtrip, parseServerMsg_roundtrip⟩

/-- Closed instance of C9: an `Accept` with a concrete UUID and a server
`Hello` with port 8080 both roundtrip. -/
theorem C9_parse_serialize_roundtrip_witness :
    parseClientMsg (serializeClientMsg
        (.Accept ⟨[0, 1, 2, 3, 4, 5, 6, 7, 8, 9, 10, 11, 12, 13, 14, 15]⟩)) =
      some (.Accept ⟨[0, 1, 2, 3, 4, 5, 6, 7, 8, 9, 10, 11, 12, 13, 14, 15]⟩) ∧
    parseServerMsg (serializeServerMsg (.Hello 8080)) = some (.Hello 8080) := by
  constructor
  · exact C9_parse_serialize_roundtrip.1 _
      (by intro u h; cases h; exact ⟨by decide, by decide⟩)
  · exact C9_parse_serialize_roundtrip.2 _
      (by intro u h; rcases h with h | h <;> cases h)
      (by intro n h; cases h; decide)

end Sshx
